import Mathlib

/-!
# LXml (include/lxml.hpp): ownership layer over a libxml2 document tree

Shallow embedding of the header `include/lxml.hpp`.

* Raw libxml2 handles (`xmlNodePtr`, `xmlDocPtr`, ...) are natural numbers, `0` being `nullptr`.
* The records the wrappers read through a handle (`xmlNode`, `xmlNodeSet`, `xmlXPathObject`)
  live in a `Memory`; reading through a null or dangling handle is undefined behaviour in C++
  and is reported as `Failure.invalid_access`.
* The owning wrappers (`Node`, `XPathObject`, `XPathContent`) are objects in a `World`: a slot per
  object, together with the log of the handles handed to each release primitive.
* `int` is a 32-bit integer in two-complement form, `size_t` a 64-bit unsigned one and
  `std::ptrdiff_t` a 64-bit signed one. An `int` or `std::ptrdiff_t` operation whose result
  leaves the type is undefined behaviour and is reported as `Failure.signed_overflow`; the
  conversion of a `std::ptrdiff_t` to `int` keeps the low 32 bits.
* `LXML_CHECK` has three builds: throwing, asserting (`LXML_NO_EXCEPTIONS`), and expanding to
  nothing (`LXML_NO_EXCEPTIONS` with `NDEBUG`).
-/

namespace LXml

/-! ## Configuration macros -/

/-- How a call into the library can end without a value. -/
inductive Failure where
  /-- A thrown `std::runtime_error`, with its message. -/
  | runtime_error (what : String)
  /-- The default `LXML_ASSERT`, `assert(X)`, stopping the program (assertions enabled). -/
  | assertion_failed
  /-- Undefined behaviour: a read through a null or dangling handle, or outside an array. -/
  | invalid_access
  /-- Undefined behaviour: overflow of a signed integer operation. -/
  | signed_overflow
deriving DecidableEq, Repr

/-- The configurations of lines 47-59: `LXML_NO_EXCEPTIONS` undefined; defined, with the
assertions of `<cassert>` enabled; defined together with `NDEBUG`, where `assert(X)` expands to
nothing. (`NDEBUG` plays no part without `LXML_NO_EXCEPTIONS`: only then is `LXML_ASSERT`
used.) -/
inductive BuildMode where
  | exceptions
  | no_exceptions
  | no_exceptions_ndebug
deriving DecidableEq, Repr

/-- Default `LXML_ASSERT(X)`, that is `assert(X)`: under `NDEBUG` it expands to nothing and `X` is
not evaluated; otherwise `X` is evaluated and a false value stops the program. -/
def LXML_ASSERT (mode : BuildMode) (X : Except Failure Bool) : Except Failure Unit :=
  match mode with
  | .no_exceptions_ndebug => .ok ()
  | _ => do
      if (← X) then pure () else throw .assertion_failed

/-- Macro `LXML_CHECK(COND)`; `text` is the stringified condition `#COND`. The condition is an
expression of the caller, evaluated by the macro (and not at all under `NDEBUG`). -/
def LXML_CHECK (mode : BuildMode) (COND : Except Failure Bool) (text : String) :
    Except Failure Unit :=
  match mode with
  | .exceptions => do
      if !(← COND) then throw (.runtime_error ("LXML_CHECK failed: " ++ text))
  | m => LXML_ASSERT m COND

/-- Handle type `xmlNodePtr`. -/
abbrev xmlNodePtr := Nat
/-- Handle type `xmlNodeSetPtr`. -/
abbrev xmlNodeSetPtr := Nat
/-- Handle type `xmlXPathObjectPtr`. -/
abbrev xmlXPathObjectPtr := Nat
/-- Handle type `xmlXPathContextPtr`. -/
abbrev xmlXPathContextPtr := Nat
/-- Handle type `xmlDocPtr`. -/
abbrev xmlDocPtr := Nat

/-- The null handle. -/
abbrev nullptr : Nat := 0

/-- A C `double`, carried as its uninterpreted bit pattern. -/
structure double where
  bits : Nat
deriving DecidableEq, Repr

/-- Conversion of an integer value of a wider type to `int` (32 bits): the value modulo `2^32`. -/
def toInt32 (x : Int) : Int := (x + 2147483648) % 4294967296 - 2147483648

/-- Conversion of a value to `size_t` (64 bits, unsigned). -/
def toSizeT (x : Int) : Nat := (x % 18446744073709551616).toNat

/-- Enumeration `xmlXPathObjectType` of libxml2 (`xpath.h`). -/
inductive xmlXPathObjectType where
  | XPATH_UNDEFINED
  | XPATH_NODESET
  | XPATH_BOOLEAN
  | XPATH_NUMBER
  | XPATH_STRING
  | XPATH_POINT
  | XPATH_RANGE
  | XPATH_LOCATIONSET
  | XPATH_USERS
  | XPATH_XSLT_TREE
deriving DecidableEq, Repr

/-- The links of a libxml2 `xmlNode` that the wrappers read. -/
structure xmlNode where
  parent : xmlNodePtr
  children : xmlNodePtr
  last : xmlNodePtr
  next : xmlNodePtr
  prev : xmlNodePtr
deriving DecidableEq, Repr

/-- A libxml2 `xmlNodeSet`: `nodeNr` entries of the array `nodeTab` are in use. -/
structure xmlNodeSet where
  nodeNr : Int
  nodeTab : List xmlNodePtr
deriving DecidableEq, Repr

/-- A libxml2 `xmlXPathObject`: the tag and the node-set field read by the wrapper. -/
structure xmlXPathObject where
  type : xmlXPathObjectType
  nodesetval : xmlNodeSetPtr
deriving DecidableEq, Repr

/-- The engine memory the wrappers read through handles. -/
structure Memory where
  node : Nat → Option xmlNode
  nodeSet : Nat → Option xmlNodeSet
  xpathObject : Nat → Option xmlXPathObject

/-- Read of `*p` for a node handle. -/
def Memory.derefNode (mem : Memory) (p : xmlNodePtr) : Except Failure xmlNode :=
  if p = nullptr then .error .invalid_access
  else match mem.node p with
    | some n => .ok n
    | none => .error .invalid_access

/-- Read of `*p` for a node-set handle. -/
def Memory.derefNodeSet (mem : Memory) (p : xmlNodeSetPtr) : Except Failure xmlNodeSet :=
  if p = nullptr then .error .invalid_access
  else match mem.nodeSet p with
    | some s => .ok s
    | none => .error .invalid_access

/-- Read of `*p` for an XPath object handle. -/
def Memory.derefObject (mem : Memory) (p : xmlXPathObjectPtr) : Except Failure xmlXPathObject :=
  if p = nullptr then .error .invalid_access
  else match mem.xpathObject p with
    | some o => .ok o
    | none => .error .invalid_access

/-- The functions of the external engine whose results the wrappers only pass on. -/
structure Engine where
  xmlReadMemory : String → Int → xmlDocPtr
  htmlReadMemory : String → Int → xmlDocPtr
  xmlXPathCastToBoolean : xmlXPathObject → Bool
  xmlXPathCastToNumber : xmlXPathObject → double
  xmlXPathCastToString : xmlXPathObject → String

/-! ## Reference types -/

/-- Class `NodeRef`: a non-owning node handle. -/
structure NodeRef where
  node : xmlNodePtr
deriving DecidableEq, Repr

/-- Method `NodeRef::is_null`. -/
def NodeRef.is_null (n : NodeRef) : Bool := n.node == nullptr

/-- Method `NodeRef::get`. -/
def NodeRef.get (n : NodeRef) : xmlNodePtr := n.node

/-- Class `XPathIterator`: a node-set handle and an `int` index. -/
structure XPathIterator where
  set : xmlNodeSetPtr
  index : Int
deriving DecidableEq, Repr

/-- The result of an `int` operation whose mathematical value is `x`: that value when it is in
the range of `int`; signed overflow is undefined behaviour. -/
def intResult (x : Int) : Except Failure Int :=
  if -2147483648 ≤ x ∧ x ≤ 2147483647 then .ok x else .error .signed_overflow

/-- The result of a `std::ptrdiff_t` operation (64 bits) whose mathematical value is `x`: that
value when it is in range; signed overflow is undefined behaviour. -/
def ptrdiffResult (x : Int) : Except Failure Int :=
  if -9223372036854775808 ≤ x ∧ x ≤ 9223372036854775807 then .ok x
  else .error .signed_overflow

/-- Pre-increment `XPathIterator::operator++`: `++index` on an `int`. -/
def XPathIterator.inc (it : XPathIterator) : Except Failure XPathIterator := do
  return { it with index := ← intResult (it.index + 1) }

/-- Pre-decrement `XPathIterator::operator--`: `--index` on an `int`. -/
def XPathIterator.dec (it : XPathIterator) : Except Failure XPathIterator := do
  return { it with index := ← intResult (it.index - 1) }

/-- Comparison `XPathIterator::operator==`. -/
def XPathIterator.eq (a b : XPathIterator) : Bool :=
  a.index == b.index && a.set == b.set

/-- Comparison `XPathIterator::operator!=`. -/
def XPathIterator.ne (a b : XPathIterator) : Bool :=
  a.index != b.index || a.set != b.set

/-- Dereference `XPathIterator::operator*`: the bounds check
`LXML_CHECK(index >= 0 && index < set->nodeNr)`, whose second operand is read only when the first
holds, then `set->nodeTab[index]`. -/
def XPathIterator.deref (mode : BuildMode) (mem : Memory) (it : XPathIterator) :
    Except Failure NodeRef := do
  LXML_CHECK mode
    (if it.index ≥ 0 then do
      let s ← mem.derefNodeSet it.set
      pure (decide (it.index < s.nodeNr))
    else pure false)
    "index >= 0 && index < set->nodeNr"
  let s ← mem.derefNodeSet it.set
  if it.index < 0 then throw .invalid_access
  match s.nodeTab[it.index.toNat]? with
  | some p => return NodeRef.mk p
  | none => throw .invalid_access

/-- Difference `XPathIterator::operator-(const XPathIterator &)`: the `int` subtraction
`index - it.index`, returned as `std::ptrdiff_t`. -/
def XPathIterator.sub (a b : XPathIterator) : Except Failure Int :=
  intResult (a.index - b.index)

/-- Compound assignment `XPathIterator::operator+=`: `index += n`, where the sum is formed in
`std::ptrdiff_t` and converted back to the `int` member (modulo `2^32`). -/
def XPathIterator.add_assign (it : XPathIterator) (n : Int) :
    Except Failure XPathIterator := do
  return { it with index := toInt32 (← ptrdiffResult (it.index + n)) }

/-- Compound assignment `XPathIterator::operator-=`: `index -= n`, where the difference is formed
in `std::ptrdiff_t` and converted back to the `int` member (modulo `2^32`). -/
def XPathIterator.sub_assign (it : XPathIterator) (n : Int) :
    Except Failure XPathIterator := do
  return { it with index := toInt32 (← ptrdiffResult (it.index - n)) }

/-- Offset `XPathIterator::operator+(std::ptrdiff_t)`: a copy `it` with `it.index += n`. -/
def XPathIterator.plus (self : XPathIterator) (n : Int) : Except Failure XPathIterator := do
  let it := self
  return { it with index := toInt32 (← ptrdiffResult (it.index + n)) }

/-- Offset `XPathIterator::operator-(std::ptrdiff_t)`: a copy `it` with `it.index -= n`. -/
def XPathIterator.minus (self : XPathIterator) (n : Int) : Except Failure XPathIterator := do
  let it := self
  return { it with index := toInt32 (← ptrdiffResult (it.index - n)) }

/-- Post-increment `XPathIterator::operator++(int)`: the returned copy and the updated
iterator. -/
def XPathIterator.postInc (self : XPathIterator) :
    Except Failure (XPathIterator × XPathIterator) := do
  let it := self
  return (it, { self with index := ← intResult (self.index + 1) })

/-- Post-decrement `XPathIterator::operator--(int)`: the returned copy and the updated
iterator. -/
def XPathIterator.postDec (self : XPathIterator) :
    Except Failure (XPathIterator × XPathIterator) := do
  let it := self
  return (it, { self with index := ← intResult (self.index - 1) })

/-- Macro `xmlXPathNodeSetGetLength(ns)` of libxml2 `xpath.h`: `((ns) ? (ns)->nodeNr : 0)`. -/
def xmlXPathNodeSetGetLength (mem : Memory) (ns : xmlNodeSetPtr) : Except Failure Int :=
  if ns ≠ nullptr then do
    let s ← mem.derefNodeSet ns
    return s.nodeNr
  else return 0

/-- Macro `xmlXPathNodeSetItem(ns, index)` of libxml2 `xpath.h`, at an index of type `size_t`:
`(((ns) != NULL) && ((index) >= 0) && ((index) < (ns)->nodeNr)) ? (ns)->nodeTab[(index)] : NULL`;
the comparison with `nodeNr` is made in `size_t`. -/
def xmlXPathNodeSetItem (mem : Memory) (ns : xmlNodeSetPtr) (index : Nat) :
    Except Failure xmlNodePtr :=
  if ns ≠ nullptr then do
    let s ← mem.derefNodeSet ns
    if index < toSizeT s.nodeNr then
      match s.nodeTab[index]? with
      | some p => return p
      | none => throw .invalid_access
    else return nullptr
  else return nullptr

/-- Class `XPathNodeSet`: a non-owning node-set handle. -/
structure XPathNodeSet where
  set : xmlNodeSetPtr
deriving DecidableEq, Repr

/-- Method `XPathNodeSet::size`. -/
def XPathNodeSet.size (mem : Memory) (s : XPathNodeSet) : Except Failure Nat := do
  return toSizeT (← xmlXPathNodeSetGetLength mem s.set)

/-- Method `XPathNodeSet::length`. -/
def XPathNodeSet.length (mem : Memory) (s : XPathNodeSet) : Except Failure Nat := do
  return toSizeT (← xmlXPathNodeSetGetLength mem s.set)

/-- Method `XPathNodeSet::at`. -/
def XPathNodeSet.at_ (mem : Memory) (s : XPathNodeSet) (i : Nat) : Except Failure NodeRef := do
  return NodeRef.mk (← xmlXPathNodeSetItem mem s.set i)

/-- Method `XPathNodeSet::operator[]`. -/
def XPathNodeSet.index (mem : Memory) (s : XPathNodeSet) (i : Nat) : Except Failure NodeRef := do
  return NodeRef.mk (← xmlXPathNodeSetItem mem s.set i)

/-- Method `XPathNodeSet::begin`. -/
def XPathNodeSet.begin (s : XPathNodeSet) : XPathIterator :=
  XPathIterator.mk s.set 0

/-- Method `XPathNodeSet::end`, which reads `set->nodeNr`. -/
def XPathNodeSet.end_ (mem : Memory) (s : XPathNodeSet) : Except Failure XPathIterator := do
  let ns ← mem.derefNodeSet s.set
  return XPathIterator.mk s.set ns.nodeNr

/-- Class `XPathObject` seen through its handle. -/
structure XPathObject where
  obj : xmlXPathObjectPtr
deriving DecidableEq, Repr

/-- Method `XPathObject::is_null`. -/
def XPathObject.is_null (r : XPathObject) : Bool := r.obj == nullptr

/-- Method `XPathObject::is_nodeset`. -/
def XPathObject.is_nodeset (mem : Memory) (r : XPathObject) : Except Failure Bool := do
  return (← mem.derefObject r.obj).type == .XPATH_NODESET

/-- Method `XPathObject::is_boolean`. -/
def XPathObject.is_boolean (mem : Memory) (r : XPathObject) : Except Failure Bool := do
  return (← mem.derefObject r.obj).type == .XPATH_BOOLEAN

/-- Method `XPathObject::is_number`. -/
def XPathObject.is_number (mem : Memory) (r : XPathObject) : Except Failure Bool := do
  return (← mem.derefObject r.obj).type == .XPATH_NUMBER

/-- Method `XPathObject::is_string`. -/
def XPathObject.is_string (mem : Memory) (r : XPathObject) : Except Failure Bool := do
  return (← mem.derefObject r.obj).type == .XPATH_STRING

/-- Method `XPathObject::as_boolean`. -/
def XPathObject.as_boolean (mode : BuildMode) (E : Engine) (mem : Memory) (r : XPathObject) :
    Except Failure Bool := do
  LXML_CHECK mode (r.is_boolean mem) "is_boolean()"
  return E.xmlXPathCastToBoolean (← mem.derefObject r.obj)

/-- Method `XPathObject::as_number`. -/
def XPathObject.as_number (mode : BuildMode) (E : Engine) (mem : Memory) (r : XPathObject) :
    Except Failure double := do
  LXML_CHECK mode (r.is_number mem) "is_number()"
  return E.xmlXPathCastToNumber (← mem.derefObject r.obj)

/-- Method `XPathObject::as_string`. -/
def XPathObject.as_string (mode : BuildMode) (E : Engine) (mem : Memory) (r : XPathObject) :
    Except Failure String := do
  LXML_CHECK mode (r.is_string mem) "is_string()"
  return E.xmlXPathCastToString (← mem.derefObject r.obj)

/-- Method `XPathObject::as_nodeset`. -/
def XPathObject.as_nodeset (mode : BuildMode) (mem : Memory) (r : XPathObject) :
    Except Failure XPathNodeSet := do
  LXML_CHECK mode (r.is_nodeset mem) "is_nodeset()"
  return XPathNodeSet.mk (← mem.derefObject r.obj).nodesetval

/-- Method `XPathObject::begin`. -/
def XPathObject.begin (mem : Memory) (r : XPathObject) : Except Failure XPathIterator := do
  return XPathIterator.mk (← mem.derefObject r.obj).nodesetval 0

/-- Method `XPathObject::end`. -/
def XPathObject.end_ (mem : Memory) (r : XPathObject) : Except Failure XPathIterator := do
  let set := (← mem.derefObject r.obj).nodesetval
  if !(← r.is_nodeset mem) then
    return XPathIterator.mk set 0
  let ns ← mem.derefNodeSet set
  return XPathIterator.mk set ns.nodeNr

/-- The iterator reached from `it` by `k` applications of `++`. -/
def XPathIterator.advance : Nat → XPathIterator → Except Failure XPathIterator
  | 0, it => .ok it
  | k + 1, it => do XPathIterator.advance k (← it.inc)

/-- A node set as the engine keeps it: `nodeNr` is a non-negative `int` and that many entries of
`nodeTab` exist. -/
def wellFormedNodeSet (ns : xmlNodeSet) : Bool :=
  decide (0 ≤ ns.nodeNr) && decide (ns.nodeNr ≤ 2147483647) &&
    decide (ns.nodeNr ≤ (ns.nodeTab.length : Int))

/-! ## Child iteration (lines 192-257, 344-362, 447-452) -/

/-- Class `NodeChildIterator`: current and previous handle. -/
structure NodeChildIterator where
  cur : xmlNodePtr
  prev : xmlNodePtr
deriving DecidableEq, Repr

/-- Constructor `NodeChildIterator(xmlNode *prev, xmlNode *cur)`. -/
def NodeChildIterator.new (prev cur : xmlNodePtr) : NodeChildIterator :=
  { cur := cur, prev := prev }

/-- Comparison `NodeChildIterator::operator==`. -/
def NodeChildIterator.eq (a b : NodeChildIterator) : Bool := a.cur == b.cur

/-- Comparison `NodeChildIterator::operator!=`. -/
def NodeChildIterator.ne (a b : NodeChildIterator) : Bool := a.cur != b.cur

/-- Pre-increment `NodeChildIterator::operator++`: `prev = cur; cur = cur->next`. -/
def NodeChildIterator.inc (mem : Memory) (it : NodeChildIterator) :
    Except Failure NodeChildIterator := do
  let prev := it.cur
  let n ← mem.derefNode it.cur
  return { cur := n.next, prev := prev }

/-- Pre-decrement `NodeChildIterator::operator--`: `cur = prev; prev = cur->prev`. -/
def NodeChildIterator.dec (mem : Memory) (it : NodeChildIterator) :
    Except Failure NodeChildIterator := do
  let cur := it.prev
  let n ← mem.derefNode cur
  return { cur := cur, prev := n.prev }

/-- Dereference `NodeChildIterator::operator*`. -/
def NodeChildIterator.deref (it : NodeChildIterator) : NodeRef := NodeRef.mk it.cur

/-- Class `NodeChildren`: first and last child handle. -/
structure NodeChildren where
  first : xmlNodePtr
  last : xmlNodePtr
deriving DecidableEq, Repr

/-- Method `NodeChildren::begin`. -/
def NodeChildren.begin (c : NodeChildren) : NodeChildIterator :=
  NodeChildIterator.new nullptr c.first

/-- Method `NodeChildren::end`. -/
def NodeChildren.end_ (c : NodeChildren) : NodeChildIterator :=
  NodeChildIterator.new c.last nullptr

/-- Method `NodeRef::children`. -/
def NodeRef.children (mem : Memory) (n : NodeRef) : Except Failure NodeChildren := do
  let x ← mem.derefNode n.node
  return NodeChildren.mk x.children x.last

/-- Method `NodeRef::parent`. -/
def NodeRef.parent (mem : Memory) (n : NodeRef) : Except Failure NodeRef := do
  return NodeRef.mk (← mem.derefNode n.node).parent

/-- Method `NodeRef::first_child`. -/
def NodeRef.first_child (mem : Memory) (n : NodeRef) : Except Failure NodeRef := do
  return NodeRef.mk (← mem.derefNode n.node).children

/-- Method `NodeRef::last_child`. -/
def NodeRef.last_child (mem : Memory) (n : NodeRef) : Except Failure NodeRef := do
  return NodeRef.mk (← mem.derefNode n.node).last

/-- Method `NodeRef::next_sibling`. -/
def NodeRef.next_sibling (mem : Memory) (n : NodeRef) : Except Failure NodeRef := do
  return NodeRef.mk (← mem.derefNode n.node).next

/-- Method `NodeRef::previous_sibling`. -/
def NodeRef.previous_sibling (mem : Memory) (n : NodeRef) : Except Failure NodeRef := do
  return NodeRef.mk (← mem.derefNode n.node).prev

/-- The iterator reached from `it` by `k` applications of `++`. -/
def NodeChildIterator.advance (mem : Memory) :
    Nat → NodeChildIterator → Except Failure NodeChildIterator
  | 0, it => .ok it
  | k + 1, it => do NodeChildIterator.advance mem k (← it.inc mem)

/-- The iterator reached from `it` by `k` applications of `--`. -/
def NodeChildIterator.retreat (mem : Memory) :
    Nat → NodeChildIterator → Except Failure NodeChildIterator
  | 0, it => .ok it
  | k + 1, it => do NodeChildIterator.retreat mem k (← it.dec mem)

/-- The loop `for (auto node : children)`: the references it visits, in order. The loop is
`for (it = begin(); it != end(); ++it) visit(*it)`; `none` is returned when `fuel` iterations
do not reach `end()`. -/
def NodeChildren.forEach (mem : Memory) (last : NodeChildIterator) :
    Nat → NodeChildIterator → Option (Except Failure (List NodeRef))
  | 0, it => if it.ne last then none else some (.ok [])
  | fuel + 1, it =>
      if it.ne last then
        match it.inc mem with
        | .ok it2 =>
            match NodeChildren.forEach mem last fuel it2 with
            | some (.ok rest) => some (.ok (it.deref :: rest))
            | other => other
        | .error e => some (.error e)
      else some (.ok [])

/-- The sibling list `cs` hangs off `cur`: every element is a live node whose parent is `p`, whose
`prev` is the element before it (`prev` for the first) and whose `next` is the element after it
(null for the last). -/
def siblingChain (mem : Memory) (p : xmlNodePtr) : xmlNodePtr → xmlNodePtr → List xmlNodePtr → Bool
  | _, cur, [] => cur == nullptr
  | prev, cur, c :: cs =>
      cur == c && c != nullptr &&
        match mem.node c with
        | some n => n.prev == prev && n.parent == p && siblingChain mem p c n.next cs
        | none => false

/-- Node `p` has the well-formed child list `cs`: `children` heads the sibling chain and `last` is
its last element (null when the list is empty). -/
def wellFormedChildren (mem : Memory) (p : xmlNodePtr) (cs : List xmlNodePtr) : Bool :=
  p != nullptr &&
    match mem.node p with
    | some n => siblingChain mem p nullptr n.children cs && n.last == cs.getLastD nullptr
    | none => false

/-! ## Owning wrappers (lines 385-427, 454-459, 626-754) -/

/-- The objects of the owning classes and the engine state their methods act on. An object is the
slot at its address: `some p` while it is alive and holds handle `p`, `none` once destroyed. -/
structure World where
  /-- The `Node` objects. -/
  nodes : List (Option xmlNodePtr)
  /-- The `XPathObject` objects. -/
  objects : List (Option xmlXPathObjectPtr)
  /-- The `XPathContent` objects. -/
  contexts : List (Option xmlXPathContextPtr)
  /-- The root element of each document tree; document handle `d + 1` is entry `d`. -/
  docs : List xmlNodePtr
  /-- The non-null handles passed to `xmlFreeNode`, latest first. -/
  freedNodes : List xmlNodePtr
  /-- The non-null handles passed to `xmlXPathFreeObject`, latest first. -/
  freedObjects : List xmlXPathObjectPtr
  /-- The non-null handles passed to `xmlXPathFreeContext`, latest first. -/
  freedContexts : List xmlXPathContextPtr
  /-- The non-null raw handles that `detach` handed to the caller, latest first. -/
  detached : List xmlNodePtr
  /-- The number of node handles `xmlNewNode` has produced; they are `1 .. allocated`. -/
  allocated : Nat
deriving DecidableEq, Repr

/-- Read of the member `node` of the `Node` object at `a`. -/
def World.loadNode (w : World) (a : Nat) : Except Failure xmlNodePtr :=
  match w.nodes[a]? with
  | some (some p) => .ok p
  | _ => .error .invalid_access

/-- Write of the member `node` of the `Node` object at `a`. -/
def World.storeNode (w : World) (a : Nat) (p : xmlNodePtr) : Except Failure World :=
  match w.nodes[a]? with
  | some (some _) => .ok { w with nodes := w.nodes.set a (some p) }
  | _ => .error .invalid_access

/-- Read of the member `obj` of the `XPathObject` object at `a`. -/
def World.loadObject (w : World) (a : Nat) : Except Failure xmlXPathObjectPtr :=
  match w.objects[a]? with
  | some (some p) => .ok p
  | _ => .error .invalid_access

/-- Write of the member `obj` of the `XPathObject` object at `a`. -/
def World.storeObject (w : World) (a : Nat) (p : xmlXPathObjectPtr) : Except Failure World :=
  match w.objects[a]? with
  | some (some _) => .ok { w with objects := w.objects.set a (some p) }
  | _ => .error .invalid_access

/-- Read of the member `ctxt` of the `XPathContent` object at `a`. -/
def World.loadContext (w : World) (a : Nat) : Except Failure xmlXPathContextPtr :=
  match w.contexts[a]? with
  | some (some p) => .ok p
  | _ => .error .invalid_access

/-- Write of the member `ctxt` of the `XPathContent` object at `a`. -/
def World.storeContext (w : World) (a : Nat) (p : xmlXPathContextPtr) : Except Failure World :=
  match w.contexts[a]? with
  | some (some _) => .ok { w with contexts := w.contexts.set a (some p) }
  | _ => .error .invalid_access

/-- Engine primitive `xmlFreeNode`: the release of a node; a null argument is ignored. -/
def World.xmlFreeNode (w : World) (p : xmlNodePtr) : World :=
  if p = nullptr then w else { w with freedNodes := p :: w.freedNodes }

/-- Engine primitive `xmlXPathFreeObject`; a null argument is ignored. -/
def World.xmlXPathFreeObject (w : World) (p : xmlXPathObjectPtr) : World :=
  if p = nullptr then w else { w with freedObjects := p :: w.freedObjects }

/-- Engine primitive `xmlXPathFreeContext`; a null argument is ignored. -/
def World.xmlXPathFreeContext (w : World) (p : xmlXPathContextPtr) : World :=
  if p = nullptr then w else { w with freedContexts := p :: w.freedContexts }

/-- Engine primitive `xmlNewNode`: a node handle never produced before. -/
def World.xmlNewNode (w : World) : xmlNodePtr × World :=
  (w.allocated + 1, { w with allocated := w.allocated + 1 })

/-- Engine primitive `xmlDocSetRootElement`: installs `root` as the root element and returns the
previous one; libxml2 documents the result as "the old root element if any was found, NULL if root
was NULL", and a null document or root leaves the tree as it is. -/
def World.xmlDocSetRootElement (w : World) (doc : xmlDocPtr) (root : xmlNodePtr) :
    Except Failure (xmlNodePtr × World) :=
  if doc = nullptr then .ok (nullptr, w)
  else if root = nullptr then .ok (nullptr, w)
  else match w.docs[doc - 1]? with
    | some old => .ok (old, { w with docs := w.docs.set (doc - 1) root })
    | none => .error .invalid_access

/-- Constructor `Node(xmlNodePtr p)`: a new object at the next address, which is returned. -/
def Node.ofPtr (w : World) (p : xmlNodePtr) : Nat × World :=
  (w.nodes.length, { w with nodes := w.nodes ++ [some p] })

/-- Function `Node::New`. -/
def Node.New (w : World) : Nat × World :=
  let (p, w1) := w.xmlNewNode
  Node.ofPtr w1 p

/-- Move constructor `Node(Node && n)`, from an existing object `n`: the new object takes the
next address, then `node = n.node; n.node = nullptr`. -/
def Node.moveCtor (w : World) (n : Nat) : Except Failure (Nat × World) := do
  let p ← w.loadNode n
  let (self, w0) := Node.ofPtr w nullptr
  let w1 ← w0.storeNode self p
  let w2 ← w1.storeNode n nullptr
  return (self, w2)

/-- Destructor `~Node()`: `xmlFreeNode(node)`, after which the object is gone. -/
def Node.dtor (w : World) (self : Nat) : Except Failure World := do
  let w1 := w.xmlFreeNode (← w.loadNode self)
  return { w1 with nodes := w1.nodes.set self none }

/-- Method `Node::assign`: `xmlFreeNode(this->node); this->node = node.node;
node.node = nullptr`. -/
def Node.assign (w : World) (self node : Nat) : Except Failure World := do
  let w1 := w.xmlFreeNode (← w.loadNode self)
  let w2 ← w1.storeNode self (← w1.loadNode node)
  w2.storeNode node nullptr

/-- Method `Node::detach`: `auto n = node; node = nullptr; return n`. -/
def Node.detach (w : World) (self : Nat) : Except Failure (xmlNodePtr × World) := do
  let n ← w.loadNode self
  let w1 ← w.storeNode self nullptr
  return (n, w1)

/-- Move assignment `Node::operator=(Node &&)`: `assign` unless `this == &node`. -/
def Node.opAssign (w : World) (self node : Nat) : Except Failure World :=
  if self ≠ node then Node.assign w self node else .ok w

/-- Method `is_null`, inherited from `NodeRef`, on the `Node` object at `self`. -/
def Node.is_null (w : World) (self : Nat) : Except Failure Bool := do
  return (NodeRef.mk (← w.loadNode self)).is_null

/-- Class `DocumentRef`: a non-owning document handle. -/
structure DocumentRef where
  doc : xmlDocPtr
deriving DecidableEq, Repr

/-- Method `DocumentRef::set_root`: `return Node(xmlDocSetRootElement(doc, n.detach()))`; the
result is the address of the returned `Node`. -/
def DocumentRef.set_root (w : World) (d : DocumentRef) (n : Nat) :
    Except Failure (Nat × World) := do
  let (h, w1) ← Node.detach w n
  let (old, w2) ← w1.xmlDocSetRootElement d.doc h
  return Node.ofPtr w2 old

/-- Move constructor `XPathObject(XPathObject && other)`, from an existing object: `obj =
other.obj; other.obj = nullptr`. -/
def XPathObject.moveCtor (w : World) (other : Nat) : Except Failure (Nat × World) := do
  let p ← w.loadObject other
  let self := w.objects.length
  let w0 := { w with objects := w.objects ++ [some nullptr] }
  let w1 ← w0.storeObject self p
  let w2 ← w1.storeObject other nullptr
  return (self, w2)

/-- Destructor `~XPathObject()`. -/
def XPathObject.dtor (w : World) (self : Nat) : Except Failure World := do
  let w1 := w.xmlXPathFreeObject (← w.loadObject self)
  return { w1 with objects := w1.objects.set self none }

/-- Move constructor `XPathContent(XPathContent && other)`, from an existing object: `ctxt =
other.ctxt; other.ctxt = nullptr`. -/
def XPathContent.moveCtor (w : World) (other : Nat) : Except Failure (Nat × World) := do
  let p ← w.loadContext other
  let self := w.contexts.length
  let w0 := { w with contexts := w.contexts ++ [some nullptr] }
  let w1 ← w0.storeContext self p
  let w2 ← w1.storeContext other nullptr
  return (self, w2)

/-- Destructor `~XPathContent()`. -/
def XPathContent.dtor (w : World) (self : Nat) : Except Failure World := do
  let w1 := w.xmlXPathFreeContext (← w.loadContext self)
  return { w1 with contexts := w1.contexts.set self none }

/-- Method `XPathContent::assign`: `xmlXPathFreeContext(ctxt); ctxt = other.ctxt;
other.ctxt = nullptr`. -/
def XPathContent.assign (w : World) (self other : Nat) : Except Failure World := do
  let w1 := w.xmlXPathFreeContext (← w.loadContext self)
  let w2 ← w1.storeContext self (← w1.loadContext other)
  w2.storeContext other nullptr

/-- Move assignment `XPathContent::operator=`: returns at once when `this == &other`. -/
def XPathContent.opAssign (w : World) (self other : Nat) : Except Failure World :=
  if self = other then .ok w else XPathContent.assign w self other

/-- Method `XPathContent::eval(u8string_view s)` on the object at `self`:
`XPathObject(xmlXPathEvalExpression(s, ctxt))`; the engine function is the first argument. -/
def XPathContent.eval (xmlXPathEvalExpression : String → xmlXPathContextPtr → xmlXPathObjectPtr)
    (w : World) (self : Nat) (s : String) : Except Failure XPathObject := do
  return XPathObject.mk (xmlXPathEvalExpression s (← w.loadContext self))

/-- Method `XPathContent::eval(NodeRef node, u8string_view s)` on the object at `self`:
`XPathObject(xmlXPathNodeEval(node.get(), s, ctxt))`; the engine function is the first
argument. -/
def XPathContent.eval_node
    (xmlXPathNodeEval : xmlNodePtr → String → xmlXPathContextPtr → xmlXPathObjectPtr)
    (w : World) (self : Nat) (node : NodeRef) (s : String) : Except Failure XPathObject := do
  return XPathObject.mk (xmlXPathNodeEval node.get s (← w.loadContext self))

/-- Modelled from the spec: the results of the evaluation functions of the external engine
(`xmlXPathEvalExpression`, `xmlXPathNodeEval`), of which only the calls are in the header:
"evaluating a path expression yields exactly one `XPathObject` whose runtime tag is one of four
kinds". A handle returned by an evaluation is null, or names an object whose tag is node-set,
boolean, number or string. -/
def evaluationResult (mem : Memory) (p : xmlXPathObjectPtr) : Bool :=
  p == nullptr ||
    match mem.xpathObject p with
    | some o =>
        o.type == .XPATH_NODESET || o.type == .XPATH_BOOLEAN || o.type == .XPATH_NUMBER ||
          o.type == .XPATH_STRING
    | none => false

/-- Everything released so far: the three release logs. -/
def World.released (w : World) :
    List xmlNodePtr × List xmlXPathObjectPtr × List xmlXPathContextPtr :=
  (w.freedNodes, w.freedObjects, w.freedContexts)

/-- The operations a caller performs on `Node` objects; objects are named by their address, and
`set_root` is called on the `DocumentRef` of raw handle `d`, the null handle included. -/
inductive Op where
  /-- Statement `Node::New(name)`. -/
  | new
  /-- Move construction of a new `Node` from the object at `n`. -/
  | moveCtor (n : Nat)
  /-- Call `a.assign(std::move(b))`. -/
  | assign (a b : Nat)
  /-- Statement `a = std::move(b)`. -/
  | opAssign (a b : Nat)
  /-- Call `a.detach()`, the caller keeping the raw handle. -/
  | detach (a : Nat)
  /-- Call `d.set_root(std::move(n))`. -/
  | set_root (d : Nat) (n : Nat)
  /-- End of the lifetime of the object at `a`. -/
  | destroy (a : Nat)
deriving DecidableEq, Repr

/-- The caller keeps the raw handle `h` it received from `detach`. -/
def World.keep (w : World) (h : xmlNodePtr) : World :=
  if h = nullptr then w else { w with detached := h :: w.detached }

/-- One operation of the caller. -/
def World.step (w : World) : Op → Except Failure World
  | .new => .ok (Node.New w).2
  | .moveCtor n => do return (← Node.moveCtor w n).2
  | .assign a b => Node.assign w a b
  | .opAssign a b => Node.opAssign w a b
  | .detach a => do
      let (h, w1) ← Node.detach w a
      return w1.keep h
  | .set_root d n => do return (← DocumentRef.set_root w (DocumentRef.mk d) n).2
  | .destroy a => Node.dtor w a

/-- A sample program: two nodes are created, the first is moved into a new object, the second
is assigned from it, installed as the root of the document of handle 1, and every object is
destroyed. -/
def Op.sample : List Op :=
  [.new, .new, .moveCtor 0, .assign 1 2, .opAssign 1 1, .set_root 1 1, .detach 2,
    .destroy 0, .destroy 1, .destroy 2, .destroy 3]

/-- The failure a failed `LXML_CHECK` of condition `text` produces in the configurations that
compile the check in: a thrown `std::runtime_error`, or the failed assertion. -/
def checkFailure (mode : BuildMode) (text : String) : Failure :=
  match mode with
  | .exceptions => .runtime_error ("LXML_CHECK failed: " ++ text)
  | _ => .assertion_failed

/-- A memory holding one XPath object, of the given tag, at handle 1. -/
def Memory.single (t : xmlXPathObjectType) : Memory where
  node := fun _ => none
  nodeSet := fun _ => none
  xpathObject := fun p => if p = 1 then some (xmlXPathObject.mk t nullptr) else none

/-- An engine whose parsers fail on every input. -/
def Engine.failing : Engine where
  xmlReadMemory := fun _ _ => nullptr
  htmlReadMemory := fun _ _ => nullptr
  xmlXPathCastToBoolean := fun _ => false
  xmlXPathCastToNumber := fun _ => double.mk 0
  xmlXPathCastToString := fun _ => ""

/-- A memory with a childless node at handle 1. -/
def Memory.leaf : Memory where
  node := fun p => if p = 1 then some (xmlNode.mk nullptr nullptr nullptr nullptr nullptr) else none
  nodeSet := fun _ => none
  xpathObject := fun _ => none

/-- A world with one object of each owning class: a `Node` holding 7, an `XPathObject` holding 8
and an `XPathContent` holding 9, with a `Node` holding 5, a null `Node`, an `XPathContent`
holding 4 and a document whose root element is 3. -/
def World.sample : World where
  nodes := [some 7, some 5, some nullptr]
  objects := [some 8]
  contexts := [some 9, some 4]
  docs := [3]
  freedNodes := []
  freedObjects := []
  freedContexts := []
  detached := []
  allocated := 9

/-- A memory with the node set `[11, 12, 13]` at handle 2 and an empty node set at handle 3. -/
def Memory.sets : Memory where
  node := fun _ => none
  nodeSet := fun p =>
    if p = 2 then some (xmlNodeSet.mk 3 [11, 12, 13, 0])
    else if p = 3 then some (xmlNodeSet.mk 0 [])
    else none
  xpathObject := fun _ => none

/-- A memory with the tree of node 1 and its two children 2 and 3. -/
def Memory.tree : Memory where
  node := fun p =>
    if p = 1 then some (xmlNode.mk nullptr 2 3 nullptr nullptr)
    else if p = 2 then some (xmlNode.mk 1 nullptr nullptr 3 nullptr)
    else if p = 3 then some (xmlNode.mk 1 nullptr nullptr nullptr 2)
    else none
  nodeSet := fun _ => none
  xpathObject := fun _ => none

/-! ## Theorems -/

/-- With the check compiled in, LXML_CHECK fails exactly on a false condition, with a failure
fixed by the configuration; under NDEBUG it does nothing. -/
theorem LXML_CHECK_eq (mode : BuildMode) (c : Bool) (text : String) :
    LXML_CHECK mode (.ok c) text =
      if c || decide (mode = .no_exceptions_ndebug) then .ok ()
      else .error (checkFailure mode text) := by
  cases mode <;> cases c <;> rfl

/-- C1, as stated, fails in the configuration LXML_NO_EXCEPTIONS with NDEBUG, where LXML_CHECK
expands to nothing: on the string result at handle 1 the predicate `is_number()` is false, yet
`as_number()` returns the value of the engine cast. -/
theorem typed_accessor_unchecked_under_ndebug :
    (XPathObject.mk 1).is_null = false ∧
      (XPathObject.mk 1).is_number (Memory.single .XPATH_STRING) = .ok false ∧
      (XPathObject.mk 1).as_number .no_exceptions_ndebug Engine.failing
        (Memory.single .XPATH_STRING) = .ok (double.mk 0) := by
  refine ⟨rfl, rfl, rfl⟩

/-- C1, amended. For a non-null XPathObject `r` (object `o` behind its handle) and each typed
accessor: in the configurations that compile LXML_CHECK in (exceptions, or LXML_NO_EXCEPTIONS with
assertions enabled) the accessor fails the check if and only if the tag of `o` differs from the
requested kind, and on a mismatch the outcome is the failure of the check (a thrown
`runtime_error` naming the condition, or the assertion failure), which depends on the
configuration only, and is never a value; on a match, in every configuration, the accessor
returns the cast made by the engine (the node-set handle for `as_nodeset`); under
LXML_NO_EXCEPTIONS with NDEBUG the check is compiled out and the accessor returns that value
whatever the tag. -/
theorem typed_accessor_check (mode : BuildMode) (E : Engine) (mem : Memory) (r : XPathObject)
    (o : xmlXPathObject) (hr : r.is_null = false) (ho : mem.xpathObject r.obj = some o) :
    ((mode ≠ .no_exceptions_ndebug →
        (r.as_boolean mode E mem = .error (checkFailure mode "is_boolean()")
          ↔ o.type ≠ .XPATH_BOOLEAN) ∧
        (o.type ≠ .XPATH_BOOLEAN → ∀ v, r.as_boolean mode E mem ≠ .ok v)) ∧
      (o.type = .XPATH_BOOLEAN → r.as_boolean mode E mem = .ok (E.xmlXPathCastToBoolean o)) ∧
      (mode = .no_exceptions_ndebug →
        r.as_boolean mode E mem = .ok (E.xmlXPathCastToBoolean o))) ∧
    ((mode ≠ .no_exceptions_ndebug →
        (r.as_number mode E mem = .error (checkFailure mode "is_number()")
          ↔ o.type ≠ .XPATH_NUMBER) ∧
        (o.type ≠ .XPATH_NUMBER → ∀ v, r.as_number mode E mem ≠ .ok v)) ∧
      (o.type = .XPATH_NUMBER → r.as_number mode E mem = .ok (E.xmlXPathCastToNumber o)) ∧
      (mode = .no_exceptions_ndebug →
        r.as_number mode E mem = .ok (E.xmlXPathCastToNumber o))) ∧
    ((mode ≠ .no_exceptions_ndebug →
        (r.as_string mode E mem = .error (checkFailure mode "is_string()")
          ↔ o.type ≠ .XPATH_STRING) ∧
        (o.type ≠ .XPATH_STRING → ∀ v, r.as_string mode E mem ≠ .ok v)) ∧
      (o.type = .XPATH_STRING → r.as_string mode E mem = .ok (E.xmlXPathCastToString o)) ∧
      (mode = .no_exceptions_ndebug →
        r.as_string mode E mem = .ok (E.xmlXPathCastToString o))) ∧
    ((mode ≠ .no_exceptions_ndebug →
        (r.as_nodeset mode mem = .error (checkFailure mode "is_nodeset()")
          ↔ o.type ≠ .XPATH_NODESET) ∧
        (o.type ≠ .XPATH_NODESET → ∀ v, r.as_nodeset mode mem ≠ .ok v)) ∧
      (o.type = .XPATH_NODESET → r.as_nodeset mode mem = .ok (XPathNodeSet.mk o.nodesetval)) ∧
      (mode = .no_exceptions_ndebug →
        r.as_nodeset mode mem = .ok (XPathNodeSet.mk o.nodesetval))) := by
  have hnz : r.obj ≠ 0 := by simpa [XPathObject.is_null] using hr
  have hd : mem.derefObject r.obj = .ok o := by simp [Memory.derefObject, hnz, ho]
  have hb : r.is_boolean mem = .ok (o.type == .XPATH_BOOLEAN) := by
    simp [XPathObject.is_boolean, hd, bind, Except.bind, pure, Except.pure]
  have hnum : r.is_number mem = .ok (o.type == .XPATH_NUMBER) := by
    simp [XPathObject.is_number, hd, bind, Except.bind, pure, Except.pure]
  have hstr : r.is_string mem = .ok (o.type == .XPATH_STRING) := by
    simp [XPathObject.is_string, hd, bind, Except.bind, pure, Except.pure]
  have hset : r.is_nodeset mem = .ok (o.type == .XPATH_NODESET) := by
    simp [XPathObject.is_nodeset, hd, bind, Except.bind, pure, Except.pure]
  refine ⟨⟨?_, ?_, ?_⟩, ⟨?_, ?_, ?_⟩, ⟨?_, ?_, ?_⟩, ⟨?_, ?_, ?_⟩⟩
  · intro hm
    by_cases h : o.type = .XPATH_BOOLEAN <;>
      simp [XPathObject.as_boolean, hb, hd, LXML_CHECK_eq, h, hm, bind, Except.bind, pure,
        Except.pure]
  · intro h
    simp [XPathObject.as_boolean, hb, hd, LXML_CHECK_eq, h, bind, Except.bind, pure, Except.pure]
  · intro hm
    simp [XPathObject.as_boolean, hb, hd, LXML_CHECK_eq, hm, bind, Except.bind, pure,
      Except.pure]
  · intro hm
    by_cases h : o.type = .XPATH_NUMBER <;>
      simp [XPathObject.as_number, hnum, hd, LXML_CHECK_eq, h, hm, bind, Except.bind, pure,
        Except.pure]
  · intro h
    simp [XPathObject.as_number, hnum, hd, LXML_CHECK_eq, h, bind, Except.bind, pure, Except.pure]
  · intro hm
    simp [XPathObject.as_number, hnum, hd, LXML_CHECK_eq, hm, bind, Except.bind, pure,
      Except.pure]
  · intro hm
    by_cases h : o.type = .XPATH_STRING <;>
      simp [XPathObject.as_string, hstr, hd, LXML_CHECK_eq, h, hm, bind, Except.bind, pure,
        Except.pure]
  · intro h
    simp [XPathObject.as_string, hstr, hd, LXML_CHECK_eq, h, bind, Except.bind, pure, Except.pure]
  · intro hm
    simp [XPathObject.as_string, hstr, hd, LXML_CHECK_eq, hm, bind, Except.bind, pure,
      Except.pure]
  · intro hm
    by_cases h : o.type = .XPATH_NODESET <;>
      simp [XPathObject.as_nodeset, hset, hd, LXML_CHECK_eq, h, hm, bind, Except.bind, pure,
        Except.pure]
  · intro h
    simp [XPathObject.as_nodeset, hset, hd, LXML_CHECK_eq, h, bind, Except.bind, pure,
      Except.pure]
  · intro hm
    simp [XPathObject.as_nodeset, hset, hd, LXML_CHECK_eq, hm, bind, Except.bind, pure,
      Except.pure]

/-- Witness of C1 amended: with exceptions, a string result refuses `as_number` and yields its
string. -/
theorem typed_accessor_check_witness :
    (XPathObject.mk 1).as_number .exceptions Engine.failing (Memory.single .XPATH_STRING)
        = .error (.runtime_error "LXML_CHECK failed: is_number()") ∧
      (XPathObject.mk 1).as_string .exceptions Engine.failing (Memory.single .XPATH_STRING)
        = .ok "" :=
  have h := typed_accessor_check .exceptions Engine.failing (Memory.single .XPATH_STRING)
    (XPathObject.mk 1) (xmlXPathObject.mk .XPATH_STRING nullptr) rfl rfl
  ⟨(h.2.1.1 (by decide)).1.mpr (by decide), h.2.2.1.2.1 rfl⟩

/-- C9. For a non-null XPathObject `r` whose tag is not node-set, `begin()` and `end()` are both
defined and are the same iterator (the node-set field at index 0): `begin() == end()` is true,
`begin() != end()` is false and their distance is 0; both are computed without reading the node
set, whatever the node-set part of the memory holds. -/
theorem xpath_object_iteration_empty (mem : Memory) (r : XPathObject) (o : xmlXPathObject)
    (hr : r.is_null = false) (ho : mem.xpathObject r.obj = some o)
    (ht : o.type ≠ .XPATH_NODESET) :
    r.begin mem = .ok (XPathIterator.mk o.nodesetval 0) ∧
      r.end_ mem = .ok (XPathIterator.mk o.nodesetval 0) ∧
      (XPathIterator.mk o.nodesetval 0).eq (XPathIterator.mk o.nodesetval 0) = true ∧
      (XPathIterator.mk o.nodesetval 0).ne (XPathIterator.mk o.nodesetval 0) = false ∧
      (XPathIterator.mk o.nodesetval 0).sub (XPathIterator.mk o.nodesetval 0) = .ok 0 ∧
      ∀ sets : Nat → Option xmlNodeSet,
        r.begin { mem with nodeSet := sets } = r.begin mem ∧
          r.end_ { mem with nodeSet := sets } = r.end_ mem := by
  have hnz : r.obj ≠ 0 := by simpa [XPathObject.is_null] using hr
  have hd : ∀ sets : Nat → Option xmlNodeSet,
      Memory.derefObject { mem with nodeSet := sets } r.obj = .ok o := by
    intro sets
    simp [Memory.derefObject, hnz, ho]
  have hd0 : mem.derefObject r.obj = .ok o := by simp [Memory.derefObject, hnz, ho]
  have hb : ∀ m : Memory, m.derefObject r.obj = .ok o →
      r.begin m = .ok (XPathIterator.mk o.nodesetval 0) := by
    intro m hm
    simp [XPathObject.begin, hm, bind, Except.bind, pure, Except.pure]
  have he : ∀ m : Memory, m.derefObject r.obj = .ok o →
      r.end_ m = .ok (XPathIterator.mk o.nodesetval 0) := by
    intro m hm
    simp [XPathObject.end_, XPathObject.is_nodeset, hm, ht, bind, Except.bind, pure, Except.pure]
  refine ⟨hb mem hd0, he mem hd0, ?_, ?_, ?_, ?_⟩
  · simp [XPathIterator.eq]
  · simp [XPathIterator.ne]
  · simp [XPathIterator.sub, intResult]
  · intro sets
    rw [hb _ (hd sets), he _ (hd sets), hb mem hd0, he mem hd0]
    exact ⟨rfl, rfl⟩

/-- Witness of C9: a string result whose node-set field is null iterates as empty. -/
theorem xpath_object_iteration_empty_witness :
    (XPathObject.mk 1).begin (Memory.single .XPATH_STRING) = .ok (XPathIterator.mk nullptr 0) ∧
      (XPathObject.mk 1).end_ (Memory.single .XPATH_STRING) = .ok (XPathIterator.mk nullptr 0) :=
  have h := xpath_object_iteration_empty (Memory.single .XPATH_STRING) (XPathObject.mk 1)
    (xmlXPathObject.mk .XPATH_STRING nullptr) rfl rfl (by decide)
  ⟨h.1, h.2.1⟩

/-- C10. For a non-null node `n` without children (first-child and last-child handles null),
`n.children()` is defined, `begin() == end()` is true, `begin() != end()` is false, and the
range-for loop over the children visits nothing, whatever the iteration budget. -/
theorem empty_children_begin_eq_end (mem : Memory) (n : NodeRef) (x : xmlNode)
    (hn : n.is_null = false) (hx : mem.node n.node = some x)
    (hfirst : x.children = nullptr) (hlast : x.last = nullptr) :
    n.children mem = .ok (NodeChildren.mk nullptr nullptr) ∧
      (NodeChildren.mk nullptr nullptr).begin.eq (NodeChildren.mk nullptr nullptr).end_ = true ∧
      (NodeChildren.mk nullptr nullptr).begin.ne (NodeChildren.mk nullptr nullptr).end_ = false ∧
      ∀ fuel, NodeChildren.forEach mem (NodeChildren.mk nullptr nullptr).end_ fuel
        (NodeChildren.mk nullptr nullptr).begin = some (.ok []) := by
  have hnz : n.node ≠ 0 := by simpa [NodeRef.is_null] using hn
  refine ⟨?_, by decide, by decide, ?_⟩
  · simp [NodeRef.children, Memory.derefNode, hnz, hx, hfirst, hlast, bind, Except.bind, pure,
      Except.pure]
  · intro fuel
    cases fuel <;> simp [NodeChildren.forEach, NodeChildren.begin, NodeChildren.end_,
      NodeChildIterator.new, NodeChildIterator.ne]

/-- Witness of C10: the childless node at handle 1. -/
theorem empty_children_begin_eq_end_witness :
    (NodeRef.mk 1).children Memory.leaf = .ok (NodeChildren.mk nullptr nullptr) ∧
      NodeChildren.forEach Memory.leaf (NodeChildren.mk nullptr nullptr).end_ 5
        (NodeChildren.mk nullptr nullptr).begin = some (.ok []) :=
  have h := empty_children_begin_eq_end Memory.leaf (NodeRef.mk 1)
    (xmlNode.mk nullptr nullptr nullptr nullptr nullptr) rfl rfl rfl rfl
  ⟨h.1, h.2.2.2 5⟩

/-- A live `Node` object is a slot holding its handle. -/
theorem loadNode_ok_iff (w : World) (a : Nat) (p : xmlNodePtr) :
    w.loadNode a = .ok p ↔ w.nodes[a]? = some (some p) := by
  unfold World.loadNode
  split
  · rename_i q hq
    simp [hq]
  · rename_i hq
    constructor
    · intro h; cases h
    · intro h; exact absurd h (hq p)

/-- Writing to a live `Node` object replaces its slot. -/
theorem storeNode_of_load (w : World) (a : Nat) (x p : xmlNodePtr) (h : w.loadNode a = .ok x) :
    w.storeNode a p = .ok { w with nodes := w.nodes.set a (some p) } := by
  rw [loadNode_ok_iff] at h
  simp [World.storeNode, h]

/-- A live `XPathObject` object is a slot holding its handle. -/
theorem loadObject_ok_iff (w : World) (a : Nat) (p : xmlXPathObjectPtr) :
    w.loadObject a = .ok p ↔ w.objects[a]? = some (some p) := by
  unfold World.loadObject
  split
  · rename_i q hq
    simp [hq]
  · rename_i hq
    constructor
    · intro h; cases h
    · intro h; exact absurd h (hq p)

/-- Writing to a live `XPathObject` object replaces its slot. -/
theorem storeObject_of_load (w : World) (a : Nat) (x p : xmlXPathObjectPtr)
    (h : w.loadObject a = .ok x) :
    w.storeObject a p = .ok { w with objects := w.objects.set a (some p) } := by
  rw [loadObject_ok_iff] at h
  simp [World.storeObject, h]

/-- A live `XPathContent` object is a slot holding its handle. -/
theorem loadContext_ok_iff (w : World) (a : Nat) (p : xmlXPathContextPtr) :
    w.loadContext a = .ok p ↔ w.contexts[a]? = some (some p) := by
  unfold World.loadContext
  split
  · rename_i q hq
    simp [hq]
  · rename_i hq
    constructor
    · intro h; cases h
    · intro h; exact absurd h (hq p)

/-- Writing to a live `XPathContent` object replaces its slot. -/
theorem storeContext_of_load (w : World) (a : Nat) (x p : xmlXPathContextPtr)
    (h : w.loadContext a = .ok x) :
    w.storeContext a p = .ok { w with contexts := w.contexts.set a (some p) } := by
  rw [loadContext_ok_iff] at h
  simp [World.storeContext, h]

/-- A slot lookup that succeeds is within the list. -/
theorem lt_length_of_getElem? {α : Type} (l : List α) (a : Nat) (x : α) (h : l[a]? = some x) :
    a < l.length := by
  by_contra hc
  rw [List.getElem?_eq_none (by omega)] at h
  cases h

/-- Method `Node::detach` on a live object: the handle comes back, the object is null, nothing else
changes. -/
theorem node_detach_eq (w : World) (n : Nat) (h : xmlNodePtr) (hn : w.loadNode n = .ok h) :
    Node.detach w n = .ok (h, { w with nodes := w.nodes.set n (some nullptr) }) := by
  simp [Node.detach, hn, storeNode_of_load w n h nullptr hn, bind, Except.bind, pure, Except.pure]

/-- Constructor `Node(Node &&)` on a live source: a new object takes the handle and the source is null. -/
theorem node_moveCtor_eq (w : World) (n : Nat) (h : xmlNodePtr) (hn : w.loadNode n = .ok h) :
    Node.moveCtor w n = .ok (w.nodes.length,
      { w with nodes := (w.nodes.set n (some nullptr)) ++ [some h] }) := by
  have hlt : n < w.nodes.length :=
    lt_length_of_getElem? _ _ _ ((loadNode_ok_iff w n h).mp hn)
  have hs : (Node.ofPtr w nullptr).2.loadNode w.nodes.length = .ok nullptr := by
    rw [loadNode_ok_iff]
    simp [Node.ofPtr]
  have e1 : (Node.ofPtr w nullptr).1 = w.nodes.length := rfl
  have h1 : World.loadNode { (Node.ofPtr w nullptr).2 with
      nodes := (Node.ofPtr w nullptr).2.nodes.set w.nodes.length (some h) } n = .ok h := by
    rw [loadNode_ok_iff] at hn ⊢
    simp [Node.ofPtr, List.getElem?_set, List.getElem?_append_left hlt, hn]
  simp only [Node.moveCtor, bind, Except.bind, pure, Except.pure, e1, hn,
    storeNode_of_load _ _ _ h hs, storeNode_of_load _ _ _ nullptr h1]
  simp [Node.ofPtr, List.set_append, hlt]

/-- The release primitive leaves the `Node` objects as they are. -/
theorem xmlFreeNode_nodes (w : World) (p : xmlNodePtr) : (w.xmlFreeNode p).nodes = w.nodes := by
  unfold World.xmlFreeNode
  split <;> rfl

/-- The release primitive leaves the `XPathContent` objects as they are. -/
theorem xmlXPathFreeContext_contexts (w : World) (p : xmlXPathContextPtr) :
    (w.xmlXPathFreeContext p).contexts = w.contexts := by
  unfold World.xmlXPathFreeContext
  split <;> rfl

/-- Method `Node::assign` on live objects (the same one or not): the destination handle is released,
then the destination is written, then the argument is nulled. -/
theorem node_assign_eq (w : World) (a b : Nat) (pa pb : xmlNodePtr)
    (ha : w.loadNode a = .ok pa) (hb : w.loadNode b = .ok pb) :
    Node.assign w a b = .ok { w.xmlFreeNode pa with
      nodes := (w.nodes.set a (some pb)).set b (some nullptr) } := by
  have ha1 : (w.xmlFreeNode pa).loadNode a = .ok pa := by
    rw [loadNode_ok_iff] at ha ⊢
    rw [xmlFreeNode_nodes, ha]
  have hb1 : (w.xmlFreeNode pa).loadNode b = .ok pb := by
    rw [loadNode_ok_iff] at hb ⊢
    rw [xmlFreeNode_nodes, hb]
  have hblt : b < w.nodes.length :=
    lt_length_of_getElem? _ _ _ ((loadNode_ok_iff w b pb).mp hb)
  have hb2 : ∃ x, World.loadNode { w.xmlFreeNode pa with
      nodes := (w.xmlFreeNode pa).nodes.set a (some pb) } b = .ok x := by
    by_cases hab : a = b
    · refine ⟨pb, ?_⟩
      rw [loadNode_ok_iff]
      simp [xmlFreeNode_nodes, List.getElem?_set, hab, hblt]
    · refine ⟨pb, ?_⟩
      rw [loadNode_ok_iff] at hb ⊢
      simp [xmlFreeNode_nodes, List.getElem?_set, hab, hb]
  obtain ⟨x, hx⟩ := hb2
  simp only [Node.assign, bind, Except.bind, ha, hb1, storeNode_of_load _ _ _ pb ha1,
    storeNode_of_load _ _ _ nullptr hx]
  simp [xmlFreeNode_nodes]

/-- Destructor `~Node()` on a live object: its handle is released and the object is gone. -/
theorem node_dtor_eq (w : World) (a : Nat) (p : xmlNodePtr) (ha : w.loadNode a = .ok p) :
    Node.dtor w a = .ok { w.xmlFreeNode p with nodes := w.nodes.set a none } := by
  simp [Node.dtor, ha, bind, Except.bind, pure, Except.pure, xmlFreeNode_nodes]

/-- Constructor `XPathObject(XPathObject &&)` on a live source. -/
theorem object_moveCtor_eq (w : World) (n : Nat) (h : xmlXPathObjectPtr)
    (hn : w.loadObject n = .ok h) :
    XPathObject.moveCtor w n = .ok (w.objects.length,
      { w with objects := (w.objects.set n (some nullptr)) ++ [some h] }) := by
  have hlt : n < w.objects.length :=
    lt_length_of_getElem? _ _ _ ((loadObject_ok_iff w n h).mp hn)
  have hs : World.loadObject { w with objects := w.objects ++ [some nullptr] } w.objects.length
      = .ok nullptr := by
    rw [loadObject_ok_iff]
    simp
  have h1 : World.loadObject { w with
      objects := (w.objects ++ [some nullptr]).set w.objects.length (some h) } n = .ok h := by
    rw [loadObject_ok_iff] at hn ⊢
    simp [List.getElem?_set, List.getElem?_append_left hlt, hn]
  simp only [XPathObject.moveCtor, bind, Except.bind, pure, Except.pure, hn,
    storeObject_of_load _ _ _ h hs, storeObject_of_load _ _ _ nullptr h1]
  simp [List.set_append, hlt]

/-- Constructor `XPathContent(XPathContent &&)` on a live source. -/
theorem context_moveCtor_eq (w : World) (n : Nat) (h : xmlXPathContextPtr)
    (hn : w.loadContext n = .ok h) :
    XPathContent.moveCtor w n = .ok (w.contexts.length,
      { w with contexts := (w.contexts.set n (some nullptr)) ++ [some h] }) := by
  have hlt : n < w.contexts.length :=
    lt_length_of_getElem? _ _ _ ((loadContext_ok_iff w n h).mp hn)
  have hs : World.loadContext { w with contexts := w.contexts ++ [some nullptr] }
      w.contexts.length = .ok nullptr := by
    rw [loadContext_ok_iff]
    simp
  have h1 : World.loadContext { w with
      contexts := (w.contexts ++ [some nullptr]).set w.contexts.length (some h) } n = .ok h := by
    rw [loadContext_ok_iff] at hn ⊢
    simp [List.getElem?_set, List.getElem?_append_left hlt, hn]
  simp only [XPathContent.moveCtor, bind, Except.bind, pure, Except.pure, hn,
    storeContext_of_load _ _ _ h hs, storeContext_of_load _ _ _ nullptr h1]
  simp [List.set_append, hlt]

/-- Method `XPathContent::assign` on live objects (the same one or not). -/
theorem context_assign_eq (w : World) (a b : Nat) (pa pb : xmlXPathContextPtr)
    (ha : w.loadContext a = .ok pa) (hb : w.loadContext b = .ok pb) :
    XPathContent.assign w a b = .ok { w.xmlXPathFreeContext pa with
      contexts := (w.contexts.set a (some pb)).set b (some nullptr) } := by
  have ha1 : (w.xmlXPathFreeContext pa).loadContext a = .ok pa := by
    rw [loadContext_ok_iff] at ha ⊢
    rw [xmlXPathFreeContext_contexts, ha]
  have hb1 : (w.xmlXPathFreeContext pa).loadContext b = .ok pb := by
    rw [loadContext_ok_iff] at hb ⊢
    rw [xmlXPathFreeContext_contexts, hb]
  have hblt : b < w.contexts.length :=
    lt_length_of_getElem? _ _ _ ((loadContext_ok_iff w b pb).mp hb)
  have hb2 : ∃ x, World.loadContext { w.xmlXPathFreeContext pa with
      contexts := (w.xmlXPathFreeContext pa).contexts.set a (some pb) } b = .ok x := by
    by_cases hab : a = b
    · refine ⟨pb, ?_⟩
      rw [loadContext_ok_iff]
      simp [xmlXPathFreeContext_contexts, List.getElem?_set, hab, hblt]
    · refine ⟨pb, ?_⟩
      rw [loadContext_ok_iff] at hb ⊢
      simp [xmlXPathFreeContext_contexts, List.getElem?_set, hab, hb]
  obtain ⟨x, hx⟩ := hb2
  simp only [XPathContent.assign, bind, Except.bind, ha, hb1, storeContext_of_load _ _ _ pb ha1,
    storeContext_of_load _ _ _ nullptr hx]
  simp [xmlXPathFreeContext_contexts]

/-- Reading an object other than the one written. -/
theorem getElem?_set_append_ne {α : Type} (l : List α) (n a : Nat) (x y v : α) (han : a ≠ n)
    (ha : l[a]? = some v) : ((l.set n x) ++ [y])[a]? = some v := by
  have halt : a < l.length := lt_length_of_getElem? l a v ha
  rw [List.getElem?_append_left (by simpa using halt), List.getElem?_set_ne (Ne.symm han), ha]

/-- C6. Ownership transfer out of a wrapper nulls the source and releases nothing. For every live
`Node` holding `h`, `detach()` returns `h`, afterwards `is_null()` holds, no release log has
changed and every other `Node` holds what it held. Move-constructing a `Node`, an `XPathObject`
or an `XPathContent` from any live source holding a handle gives a new object holding that
handle, leaves the source holding the null handle, changes no release log and leaves every other
object of the class as it was. -/
theorem transfer_nulls_source_releases_nothing (w : World) :
    (∀ n h, w.loadNode n = .ok h →
      ∃ w1, Node.detach w n = .ok (h, w1) ∧ Node.is_null w1 n = .ok true ∧
        w1.loadNode n = .ok nullptr ∧ w1.released = w.released ∧
        ∀ a pa, a ≠ n → w.loadNode a = .ok pa → w1.loadNode a = .ok pa) ∧
      (∀ n h, w.loadNode n = .ok h →
        ∃ w1, Node.moveCtor w n = .ok (w.nodes.length, w1) ∧
          w1.loadNode w.nodes.length = .ok h ∧ w1.loadNode n = .ok nullptr ∧
          w1.released = w.released ∧
          ∀ a pa, a ≠ n → w.loadNode a = .ok pa → w1.loadNode a = .ok pa) ∧
      (∀ o ho, w.loadObject o = .ok ho →
        ∃ w1, XPathObject.moveCtor w o = .ok (w.objects.length, w1) ∧
          w1.loadObject w.objects.length = .ok ho ∧ w1.loadObject o = .ok nullptr ∧
          w1.released = w.released ∧
          ∀ a pa, a ≠ o → w.loadObject a = .ok pa → w1.loadObject a = .ok pa) ∧
      (∀ c hc, w.loadContext c = .ok hc →
        ∃ w1, XPathContent.moveCtor w c = .ok (w.contexts.length, w1) ∧
          w1.loadContext w.contexts.length = .ok hc ∧ w1.loadContext c = .ok nullptr ∧
          w1.released = w.released ∧
          ∀ a pa, a ≠ c → w.loadContext a = .ok pa → w1.loadContext a = .ok pa) := by
  refine ⟨?_, ?_, ?_, ?_⟩
  · intro n h hn
    have hnlt : n < w.nodes.length :=
      lt_length_of_getElem? _ _ _ ((loadNode_ok_iff w n h).mp hn)
    have hnull : World.loadNode { w with nodes := w.nodes.set n (some nullptr) } n
        = .ok nullptr := by
      rw [loadNode_ok_iff]
      simp [List.getElem?_set, hnlt]
    refine ⟨_, node_detach_eq w n h hn, ?_, hnull, rfl, ?_⟩
    · simp [Node.is_null, hnull, NodeRef.is_null, bind, Except.bind, pure, Except.pure]
    · intro a pa han ha
      rw [loadNode_ok_iff] at ha ⊢
      simp only []
      rw [List.getElem?_set_ne (Ne.symm han), ha]
  · intro n h hn
    have hnlt : n < w.nodes.length :=
      lt_length_of_getElem? _ _ _ ((loadNode_ok_iff w n h).mp hn)
    refine ⟨_, node_moveCtor_eq w n h hn, ?_, ?_, rfl, ?_⟩
    · rw [loadNode_ok_iff]
      simp [List.getElem?_append_right]
    · rw [loadNode_ok_iff]
      simp [List.getElem?_append_left, List.getElem?_set, hnlt]
    · intro a pa han ha
      rw [loadNode_ok_iff] at ha ⊢
      exact getElem?_set_append_ne _ _ _ _ _ _ han ha
  · intro o ho hobj
    have holt : o < w.objects.length :=
      lt_length_of_getElem? _ _ _ ((loadObject_ok_iff w o ho).mp hobj)
    refine ⟨_, object_moveCtor_eq w o ho hobj, ?_, ?_, rfl, ?_⟩
    · rw [loadObject_ok_iff]
      simp [List.getElem?_append_right]
    · rw [loadObject_ok_iff]
      simp [List.getElem?_append_left, List.getElem?_set, holt]
    · intro a pa han ha
      rw [loadObject_ok_iff] at ha ⊢
      exact getElem?_set_append_ne _ _ _ _ _ _ han ha
  · intro c hc hctx
    have hclt : c < w.contexts.length :=
      lt_length_of_getElem? _ _ _ ((loadContext_ok_iff w c hc).mp hctx)
    refine ⟨_, context_moveCtor_eq w c hc hctx, ?_, ?_, rfl, ?_⟩
    · rw [loadContext_ok_iff]
      simp [List.getElem?_append_right]
    · rw [loadContext_ok_iff]
      simp [List.getElem?_append_left, List.getElem?_set, hclt]
    · intro a pa han ha
      rw [loadContext_ok_iff] at ha ⊢
      exact getElem?_set_append_ne _ _ _ _ _ _ han ha

/-- Witness of C6: detaching the `Node` that holds 7 in the sample world. -/
theorem transfer_nulls_source_releases_nothing_witness :
    World.sample.loadNode 0 = .ok 7 ∧
      ∃ w1, Node.detach World.sample 0 = .ok (7, w1) ∧ Node.is_null w1 0 = .ok true ∧
        w1.loadNode 0 = .ok nullptr ∧ w1.released = World.sample.released ∧
        ∀ a pa, a ≠ 0 → World.sample.loadNode a = .ok pa → w1.loadNode a = .ok pa :=
  ⟨rfl, (transfer_nulls_source_releases_nothing World.sample).1 0 7 rfl⟩

/-- C4, as stated, fails: for the `Node` holding 7 and the `XPathContent` holding 9 of the sample
world, `x.assign(std::move(x))` passes the handle to the release primitive and leaves `x` holding
the null handle. -/
theorem assign_self_releases_and_nulls :
    World.sample.loadNode 0 = .ok 7 ∧
      (Node.assign World.sample 0 0).map (fun w => (w.freedNodes, w.loadNode 0))
        = .ok ([7], .ok nullptr) ∧
      World.sample.loadContext 0 = .ok 9 ∧
      (XPathContent.assign World.sample 0 0).map (fun w => (w.freedContexts, w.loadContext 0))
        = .ok ([9], .ok nullptr) := by
  refine ⟨rfl, rfl, rfl, rfl⟩

/-- C4, amended. `assign()` on an owning value (`Node::assign`, `XPathContent::assign`) with a
distinct live argument releases the handle currently owned by the destination (a null handle is
not a release), then the destination holds the handle of the argument and the argument holds
null, and `operator=` does the same. Self-assignment through `operator=` (`x = std::move(x)`), for
every `x`, releases nothing and leaves everything as it was, so `x` still holds `h`. `assign()`
itself has no self-assignment guard: for every live `x`, `x.assign(std::move(x))` releases `h`
and leaves `x` holding null. -/
theorem assign_releases_then_takes (w : World) :
    (∀ a b pa pb, a ≠ b → w.loadNode a = .ok pa → w.loadNode b = .ok pb →
      ∃ w1, Node.assign w a b = .ok w1 ∧ Node.opAssign w a b = .ok w1 ∧
        w1.released = (if pa = nullptr then w.freedNodes else pa :: w.freedNodes,
          w.freedObjects, w.freedContexts) ∧
        w1.loadNode a = .ok pb ∧ w1.loadNode b = .ok nullptr) ∧
      (∀ c d pc pd, c ≠ d → w.loadContext c = .ok pc → w.loadContext d = .ok pd →
        ∃ w1, XPathContent.assign w c d = .ok w1 ∧ XPathContent.opAssign w c d = .ok w1 ∧
          w1.released = (w.freedNodes, w.freedObjects,
            if pc = nullptr then w.freedContexts else pc :: w.freedContexts) ∧
          w1.loadContext c = .ok pd ∧ w1.loadContext d = .ok nullptr) ∧
      (∀ a, Node.opAssign w a a = .ok w) ∧
      (∀ c, XPathContent.opAssign w c c = .ok w) ∧
      (∀ a pa, w.loadNode a = .ok pa →
        ∃ w1, Node.assign w a a = .ok w1 ∧
          w1.released = (if pa = nullptr then w.freedNodes else pa :: w.freedNodes,
            w.freedObjects, w.freedContexts) ∧
          w1.loadNode a = .ok nullptr) ∧
      (∀ c pc, w.loadContext c = .ok pc →
        ∃ w1, XPathContent.assign w c c = .ok w1 ∧
          w1.released = (w.freedNodes, w.freedObjects,
            if pc = nullptr then w.freedContexts else pc :: w.freedContexts) ∧
          w1.loadContext c = .ok nullptr) := by
  have relN : ∀ pa l, World.released { w.xmlFreeNode pa with nodes := l }
      = (if pa = nullptr then w.freedNodes else pa :: w.freedNodes,
          w.freedObjects, w.freedContexts) := by
    intro pa l
    unfold World.xmlFreeNode World.released
    split <;> simp
  have relC : ∀ pc l, World.released { w.xmlXPathFreeContext pc with contexts := l }
      = (w.freedNodes, w.freedObjects,
          if pc = nullptr then w.freedContexts else pc :: w.freedContexts) := by
    intro pc l
    unfold World.xmlXPathFreeContext World.released
    split <;> simp
  refine ⟨?_, ?_, ?_, ?_, ?_, ?_⟩
  · intro a b pa pb hab ha hb
    have halt : a < w.nodes.length :=
      lt_length_of_getElem? _ _ _ ((loadNode_ok_iff w a pa).mp ha)
    have hblt : b < w.nodes.length :=
      lt_length_of_getElem? _ _ _ ((loadNode_ok_iff w b pb).mp hb)
    refine ⟨_, node_assign_eq w a b pa pb ha hb, ?_, relN _ _, ?_, ?_⟩
    · simp [Node.opAssign, hab, node_assign_eq w a b pa pb ha hb]
    · rw [loadNode_ok_iff, List.getElem?_set_ne (Ne.symm hab)]
      simp [List.getElem?_set, halt]
    · rw [loadNode_ok_iff]
      simp [List.getElem?_set, hblt]
  · intro c d pc pd hcd hc hd
    have hclt : c < w.contexts.length :=
      lt_length_of_getElem? _ _ _ ((loadContext_ok_iff w c pc).mp hc)
    have hdlt : d < w.contexts.length :=
      lt_length_of_getElem? _ _ _ ((loadContext_ok_iff w d pd).mp hd)
    refine ⟨_, context_assign_eq w c d pc pd hc hd, ?_, relC _ _, ?_, ?_⟩
    · simp [XPathContent.opAssign, hcd, context_assign_eq w c d pc pd hc hd]
    · rw [loadContext_ok_iff, List.getElem?_set_ne (Ne.symm hcd)]
      simp [List.getElem?_set, hclt]
    · rw [loadContext_ok_iff]
      simp [List.getElem?_set, hdlt]
  · intro a
    simp [Node.opAssign]
  · intro c
    simp [XPathContent.opAssign]
  · intro a pa ha
    have halt : a < w.nodes.length :=
      lt_length_of_getElem? _ _ _ ((loadNode_ok_iff w a pa).mp ha)
    refine ⟨_, node_assign_eq w a a pa pa ha ha, relN _ _, ?_⟩
    rw [loadNode_ok_iff]
    simp [List.getElem?_set, halt]
  · intro c pc hc
    have hclt : c < w.contexts.length :=
      lt_length_of_getElem? _ _ _ ((loadContext_ok_iff w c pc).mp hc)
    refine ⟨_, context_assign_eq w c c pc pc hc hc, relC _ _, ?_⟩
    rw [loadContext_ok_iff]
    simp [List.getElem?_set, hclt]

/-- Witness of C4 amended: in the sample world, the `Node` holding 7 is assigned the one holding
5, and assigned to itself through `operator=`. -/
theorem assign_releases_then_takes_witness :
    (0 : Nat) ≠ 1 ∧ World.sample.loadNode 0 = .ok 7 ∧ World.sample.loadNode 1 = .ok 5 ∧
      (∃ w1, Node.assign World.sample 0 1 = .ok w1 ∧ Node.opAssign World.sample 0 1 = .ok w1 ∧
        w1.released = ([7], [], []) ∧
        w1.loadNode 0 = .ok 5 ∧ w1.loadNode 1 = .ok nullptr) ∧
      Node.opAssign World.sample 0 0 = .ok World.sample :=
  have h := assign_releases_then_takes World.sample
  ⟨by decide, rfl, rfl, h.1 0 1 7 5 (by decide) rfl rfl, h.2.2.1 0⟩

/-- Method `DocumentRef::set_root` with a live `Node` holding a non-null handle, on an existing
document: the node is nulled, the tree gets the handle and a new `Node` holds the old root. -/
theorem set_root_eq (w : World) (d : DocumentRef) (n : Nat) (h p : xmlNodePtr)
    (hd : d.doc ≠ nullptr) (hp : w.docs[d.doc - 1]? = some p) (hn : w.loadNode n = .ok h)
    (hh : h ≠ nullptr) :
    d.set_root w n = .ok (w.nodes.length,
      { w with nodes := (w.nodes.set n (some nullptr)) ++ [some p],
               docs := w.docs.set (d.doc - 1) h }) := by
  have hlt : n < w.nodes.length :=
    lt_length_of_getElem? _ _ _ ((loadNode_ok_iff w n h).mp hn)
  simp [DocumentRef.set_root, node_detach_eq w n h hn, World.xmlDocSetRootElement, hd, hh, hp,
    Node.ofPtr, bind, Except.bind, pure, Except.pure]

/-- Method `DocumentRef::set_root` with a live `Node` holding the null handle: the engine installs
nothing and the returned `Node` is null. -/
theorem set_root_null (w : World) (d : DocumentRef) (n : Nat)
    (hn : w.loadNode n = .ok nullptr) :
    d.set_root w n = .ok (w.nodes.length,
      { w with nodes := (w.nodes.set n (some nullptr)) ++ [some nullptr] }) := by
  by_cases hd : d.doc = nullptr <;>
    simp [DocumentRef.set_root, node_detach_eq w n nullptr hn, World.xmlDocSetRootElement, hd,
      Node.ofPtr, bind, Except.bind, pure, Except.pure]

/-- Method `DocumentRef::set_root` on the null `DocumentRef`, or with a `Node` holding the null
handle: the node is nulled, the engine installs nothing and the returned `Node` is null. -/
theorem set_root_nothing (w : World) (d : DocumentRef) (n : Nat) (h : xmlNodePtr)
    (hn : w.loadNode n = .ok h) (h0 : d.doc = nullptr ∨ h = nullptr) :
    d.set_root w n = .ok (w.nodes.length,
      { w with nodes := (w.nodes.set n (some nullptr)) ++ [some nullptr] }) := by
  rcases h0 with hd | hh
  · simp [DocumentRef.set_root, node_detach_eq w n h hn, World.xmlDocSetRootElement, hd,
      Node.ofPtr, bind, Except.bind, pure, Except.pure]
  · subst hh
    exact set_root_null w d n hn

/-- Conversion to `int` keeps a value that is in range. -/
theorem toInt32_of_range (x : Int) (h0 : -2147483648 ≤ x) (h1 : x ≤ 2147483647) :
    toInt32 x = x := by
  unfold toInt32
  omega

/-- An `int` operation whose value is in range yields that value. -/
theorem intResult_of_range (x : Int) (h0 : -2147483648 ≤ x) (h1 : x ≤ 2147483647) :
    intResult x = .ok x := by
  simp [intResult, h0, h1]

/-- Counting `++` from an index: no step leaves the range of `int`. -/
theorem advance_eq (i : Nat) (it : XPathIterator) (h0 : 0 ≤ it.index)
    (h1 : it.index + i ≤ 2147483647) :
    XPathIterator.advance i it = .ok (XPathIterator.mk it.set (it.index + i)) := by
  induction i generalizing it with
  | zero => simp [XPathIterator.advance]
  | succ j ih =>
    have hinc : it.inc = .ok (XPathIterator.mk it.set (it.index + 1)) := by
      simp only [XPathIterator.inc, bind, Except.bind, pure, Except.pure]
      rw [intResult_of_range _ (by omega) (by push_cast at h1; omega)]
    have h2 : it.index + 1 + (j : Int) ≤ 2147483647 := by push_cast at h1; omega
    simp only [XPathIterator.advance, bind, Except.bind, hinc]
    rw [ih _ (by show 0 ≤ it.index + 1; omega) h2]
    simp
    omega

/-- C7, as stated, fails for the node set of null handle, which `size()` counts as empty: its
`size()` and `length()` are 0, yet `end()` reads `set->nodeNr` through the null handle, so
`end() - begin()` has no value. -/
theorem nodeset_null_handle_end_undefined :
    (XPathNodeSet.mk nullptr).size Memory.sets = .ok 0 ∧
      (XPathNodeSet.mk nullptr).length Memory.sets = .ok 0 ∧
      (XPathNodeSet.mk nullptr).end_ Memory.sets = .error .invalid_access := by
  refine ⟨rfl, rfl, rfl⟩

/-- C7, amended. For every XPathNodeSet `s` with a non-null handle to a well-formed node set and
`size() == k` (`k = 0` included): `end()` is defined, `end() - begin() == k`, `length() == k`, the
iterator reached from `begin()` by `k` applications of `++` equals `end()`, and for every `i < k`
the iterator reached after `i` steps differs from `end()`, its dereference passes the bounds check
and yields the same node reference as `s.at(i)` and `s[i]`. -/
theorem nodeset_iteration_counts (mode : BuildMode) (mem : Memory) (s : XPathNodeSet)
    (ns : xmlNodeSet) (k : Nat) (hs : s.set ≠ nullptr) (hns : mem.nodeSet s.set = some ns)
    (hwf : wellFormedNodeSet ns = true) (hk : s.size mem = .ok k) :
    ∃ e, s.end_ mem = .ok e ∧ e.sub s.begin = .ok (k : Int) ∧ s.length mem = .ok k ∧
      (∃ itk, XPathIterator.advance k s.begin = .ok itk ∧ itk.eq e = true ∧
        itk.ne e = false) ∧
      ∀ i, i < k → ∃ iti, XPathIterator.advance i s.begin = .ok iti ∧
        iti.ne e = true ∧ iti.eq e = false ∧
        ∃ r, iti.deref mode mem = .ok r ∧ s.at_ mem i = .ok r ∧ s.index mem i = .ok r := by
  have hnz : ¬ (s.set = 0) := hs
  have hd : mem.derefNodeSet s.set = .ok ns := by simp [Memory.derefNodeSet, hnz, hns]
  simp only [wellFormedNodeSet, Bool.and_eq_true, decide_eq_true_eq] at hwf
  obtain ⟨⟨hw0, hw1⟩, hw2⟩ := hwf
  have hlen : xmlXPathNodeSetGetLength mem s.set = .ok ns.nodeNr := by
    simp [xmlXPathNodeSetGetLength, hnz, hd, bind, Except.bind, pure, Except.pure]
  have hsz : toSizeT ns.nodeNr = ns.nodeNr.toNat := by
    unfold toSizeT
    congr 1
    omega
  have hk2 : k = ns.nodeNr.toNat := by
    simp [XPathNodeSet.size, hlen, bind, Except.bind, pure, Except.pure, hsz] at hk
    exact hk.symm
  have hkz : (k : Int) = ns.nodeNr := by
    rw [hk2]
    omega
  have hadv : ∀ i : Nat, i ≤ k →
      XPathIterator.advance i s.begin = .ok (XPathIterator.mk s.set i) := by
    intro i hi
    rw [advance_eq i s.begin (by simp [XPathNodeSet.begin]) (by simp [XPathNodeSet.begin]; omega)]
    simp [XPathNodeSet.begin]
  refine ⟨XPathIterator.mk s.set ns.nodeNr, ?_, ?_, ?_, ⟨_, hadv k (le_refl k), ?_, ?_⟩, ?_⟩
  · simp [XPathNodeSet.end_, hd, bind, Except.bind, pure, Except.pure]
  · simp only [XPathIterator.sub, XPathNodeSet.begin]
    rw [intResult_of_range _ (by omega) (by omega)]
    congr 1
    omega
  · simp [XPathNodeSet.length, hlen, bind, Except.bind, pure, Except.pure, hsz, hk2]
  · simp [XPathIterator.eq, hkz]
  · simp [XPathIterator.ne, hkz]
  · intro i hi
    refine ⟨_, hadv i (by omega), ?_⟩
    have hine : ¬ ((i : Int) = ns.nodeNr) := by omega
    have hilt : i < ns.nodeTab.length := by omega
    have hget : ns.nodeTab[i]? = some (ns.nodeTab[i]) := List.getElem?_eq_getElem hilt
    have hitem : xmlXPathNodeSetItem mem s.set i = .ok (ns.nodeTab[i]) := by
      have : i < toSizeT ns.nodeNr := by rw [hsz]; omega
      simp [xmlXPathNodeSetItem, hnz, hd, this, hget, bind, Except.bind, pure, Except.pure]
    refine ⟨by simp [XPathIterator.ne, hine], by simp [XPathIterator.eq, hine],
      NodeRef.mk (ns.nodeTab[i]), ?_, ?_, ?_⟩
    · have hchk : (i : Int) < ns.nodeNr := by omega
      simp [XPathIterator.deref, hd, LXML_CHECK_eq, hchk, hget, bind, Except.bind, pure,
        Except.pure]
    · simp [XPathNodeSet.at_, hitem, bind, Except.bind, pure, Except.pure]
    · simp [XPathNodeSet.index, hitem, bind, Except.bind, pure, Except.pure]

/-- Witness of C7 amended: the node set `[11, 12, 13]` at handle 2 has size 3 and its second
element is reached after one step. -/
theorem nodeset_iteration_counts_witness :
    (XPathNodeSet.mk 2).size Memory.sets = .ok 3 ∧
      ∃ e, (XPathNodeSet.mk 2).end_ Memory.sets = .ok e ∧
        e.sub (XPathNodeSet.mk 2).begin = .ok 3 ∧
        ∃ it, XPathIterator.advance 1 (XPathNodeSet.mk 2).begin = .ok it ∧
          it.deref .exceptions Memory.sets = (XPathNodeSet.mk 2).at_ Memory.sets 1 :=
  have h := nodeset_iteration_counts .exceptions Memory.sets (XPathNodeSet.mk 2)
    (xmlNodeSet.mk 3 [11, 12, 13, 0]) 3 (by decide) rfl (by decide) rfl
  ⟨rfl, h.choose, h.choose_spec.1, h.choose_spec.2.1, by
    obtain ⟨it, h0, _, _, r, h1, h2, _⟩ := h.choose_spec.2.2.2.2 1 (by decide)
    exact ⟨it, h0, by rw [h1, h2]⟩⟩

/-- A non-empty sibling chain, unfolded by one element. -/
theorem siblingChain_cons (mem : Memory) (p prev cur c : xmlNodePtr) (cs : List xmlNodePtr) :
    siblingChain mem p prev cur (c :: cs) = true ↔
      cur = c ∧ c ≠ nullptr ∧ ∃ n, mem.node c = some n ∧ n.prev = prev ∧ n.parent = p ∧
        siblingChain mem p c n.next cs = true := by
  simp only [siblingChain]
  cases hm : mem.node c with
  | none => simp
  | some n => simp [and_assoc]

/-- Two sibling chains that start at the same handle have the same length. -/
theorem siblingChain_length_unique (mem : Memory) (p : xmlNodePtr) (l1 : List xmlNodePtr) :
    ∀ (l2 : List xmlNodePtr) (prev1 prev2 cur : xmlNodePtr),
      siblingChain mem p prev1 cur l1 = true → siblingChain mem p prev2 cur l2 = true →
      l1.length = l2.length := by
  induction l1 with
  | nil =>
    intro l2 prev1 prev2 cur h1 h2
    cases l2 with
    | nil => rfl
    | cons c t =>
      simp [siblingChain] at h1
      rw [siblingChain_cons] at h2
      obtain ⟨e, hc, _⟩ := h2
      exact absurd (e ▸ h1) hc
  | cons a t ih =>
    intro l2 prev1 prev2 cur h1 h2
    rw [siblingChain_cons] at h1
    obtain ⟨e1, ha, n, hn, _, _, hrest⟩ := h1
    cases l2 with
    | nil =>
      simp [siblingChain] at h2
      exact absurd (e1 ▸ h2) ha
    | cons c t2 =>
      rw [siblingChain_cons] at h2
      obtain ⟨e2, _, n2, hn2, _, _, hrest2⟩ := h2
      have hca : c = a := e2.symm.trans e1
      subst hca
      rw [hn] at hn2
      cases hn2
      simp [ih t2 _ _ _ hrest hrest2]

/-- A suffix of a sibling chain is a sibling chain, starting at its own first element. -/
theorem siblingChain_suffix (mem : Memory) (p : xmlNodePtr) (l1 : List xmlNodePtr) :
    ∀ (c : xmlNodePtr) (l2 : List xmlNodePtr) (prev cur : xmlNodePtr),
      siblingChain mem p prev cur (l1 ++ c :: l2) = true →
      ∃ prev2, siblingChain mem p prev2 c (c :: l2) = true := by
  induction l1 with
  | nil =>
    intro c l2 prev cur h
    have h2 := h
    simp only [List.nil_append] at h2
    rw [siblingChain_cons] at h2
    exact ⟨prev, h2.1 ▸ h⟩
  | cons a t ih =>
    intro c l2 prev cur h
    simp only [List.cons_append] at h
    rw [siblingChain_cons] at h
    obtain ⟨_, _, n, _, _, _, hrest⟩ := h
    exact ih c l2 _ _ hrest

/-- A sibling chain never visits a node twice. -/
theorem siblingChain_nodup (mem : Memory) (p : xmlNodePtr) (cs : List xmlNodePtr) :
    ∀ (prev cur : xmlNodePtr), siblingChain mem p prev cur cs = true → cs.Nodup := by
  induction cs with
  | nil => intro _ _ _; exact List.nodup_nil
  | cons c t ih =>
    intro prev cur h
    have h0 := h
    rw [siblingChain_cons] at h
    obtain ⟨e, _, n, _, _, _, hrest⟩ := h
    refine List.nodup_cons.mpr ⟨?_, ih _ _ hrest⟩
    intro hmem
    obtain ⟨l1, l2, hsplit⟩ := List.append_of_mem hmem
    rw [hsplit] at hrest
    obtain ⟨prev2, hsuf⟩ := siblingChain_suffix mem p l1 c l2 _ _ hrest
    have hlen := siblingChain_length_unique mem p (c :: l2) (c :: t) prev2 prev c hsuf (e ▸ h0)
    rw [hsplit] at hlen
    simp at hlen
    omega

/-- Every element of a sibling chain is a live node whose parent is `p`. -/
theorem siblingChain_parent (mem : Memory) (p : xmlNodePtr) (cs : List xmlNodePtr) :
    ∀ (prev cur : xmlNodePtr), siblingChain mem p prev cur cs = true →
      ∀ c ∈ cs, (NodeRef.mk c).parent mem = .ok (NodeRef.mk p) := by
  induction cs with
  | nil => intro _ _ _ c hc; cases hc
  | cons a t ih =>
    intro prev cur h c hc
    rw [siblingChain_cons] at h
    obtain ⟨_, ha, n, hn, _, hpar, hrest⟩ := h
    rcases List.mem_cons.mp hc with e | hmem
    · subst e
      have hnz : ¬ (c = 0) := ha
      simp [NodeRef.parent, Memory.derefNode, hnz, hn, hpar, bind, Except.bind, pure,
        Except.pure]
    · exact ih _ _ hrest c hmem

/-- Walking a sibling chain with `++`: after `i` steps the iterator stands on the `i`-th element,
which is not the end, and after all of them its current handle is null. -/
theorem advance_siblingChain (mem : Memory) (p : xmlNodePtr) (cs : List xmlNodePtr) :
    ∀ (prev cur : xmlNodePtr), siblingChain mem p prev cur cs = true →
      (∃ pv, NodeChildIterator.advance mem cs.length (NodeChildIterator.mk cur prev)
          = .ok (NodeChildIterator.mk nullptr pv)) ∧
      ∀ i (hi : i < cs.length), cs[i] ≠ nullptr ∧
        ∃ pv, NodeChildIterator.advance mem i (NodeChildIterator.mk cur prev)
          = .ok (NodeChildIterator.mk cs[i] pv) := by
  induction cs with
  | nil =>
    intro prev cur h
    simp [siblingChain] at h
    refine ⟨⟨prev, by simp [NodeChildIterator.advance, h]⟩, ?_⟩
    intro i hi
    simp at hi
  | cons a t ih =>
    intro prev cur h
    rw [siblingChain_cons] at h
    obtain ⟨e, ha, n, hn, _, _, hrest⟩ := h
    subst e
    have hnz : ¬ (cur = 0) := ha
    have hinc : (NodeChildIterator.mk cur prev).inc mem = .ok (NodeChildIterator.mk n.next cur) := by
      simp [NodeChildIterator.inc, Memory.derefNode, hnz, hn, bind, Except.bind, pure,
        Except.pure]
    obtain ⟨⟨pv, hfull⟩, hstep⟩ := ih cur n.next hrest
    refine ⟨⟨pv, ?_⟩, ?_⟩
    · simp only [List.length_cons, NodeChildIterator.advance, bind, Except.bind, hinc]
      exact hfull
    · intro i hi
      cases i with
      | zero => exact ⟨ha, prev, rfl⟩
      | succ j =>
        have hj : j < t.length := by simpa using hi
        obtain ⟨hne, pv2, hadv⟩ := hstep j hj
        refine ⟨by simpa using hne, pv2, ?_⟩
        simp only [NodeChildIterator.advance, bind, Except.bind, hinc]
        simpa using hadv

/-- The range-for loop over a sibling chain visits its elements in order and stops. -/
theorem forEach_siblingChain (mem : Memory) (p : xmlNodePtr) (cs : List xmlNodePtr) :
    ∀ (prev cur last : xmlNodePtr) (fuel : Nat), siblingChain mem p prev cur cs = true →
      cs.length ≤ fuel →
      NodeChildren.forEach mem (NodeChildIterator.mk nullptr last) fuel
        (NodeChildIterator.mk cur prev) = some (.ok (cs.map NodeRef.mk)) := by
  induction cs with
  | nil =>
    intro prev cur last fuel h _
    simp [siblingChain] at h
    cases fuel <;> simp [NodeChildren.forEach, NodeChildIterator.ne, h]
  | cons a t ih =>
    intro prev cur last fuel h hfuel
    rw [siblingChain_cons] at h
    obtain ⟨e, ha, n, hn, _, _, hrest⟩ := h
    subst e
    have hnz : ¬ (cur = 0) := ha
    have hinc : (NodeChildIterator.mk cur prev).inc mem = .ok (NodeChildIterator.mk n.next cur) := by
      simp [NodeChildIterator.inc, Memory.derefNode, hnz, hn, bind, Except.bind, pure,
        Except.pure]
    cases fuel with
    | zero => simp at hfuel
    | succ f =>
      have hf : t.length ≤ f := by simpa using hfuel
      simp [NodeChildren.forEach, NodeChildIterator.ne, hnz, hinc, ih cur n.next last f hrest hf,
        NodeChildIterator.deref]

/-- C8. For every node `p` whose children form the well-formed doubly linked sibling list `cs`
(first child `children`, last child `last`, consistent `next`, `prev` and `parent` links):
`p.children()` is defined; `++` applied `cs.length` times to `begin()` succeeds and gives an
iterator equal to `end()`; after `i < cs.length` steps the iterator differs from `end()` and
dereferences to the reference holding the very handle `cs[i]`; the range-for loop terminates
within `cs.length` iterations and visits exactly the children in order; the list has no
repetition, and every child `n` of the list has `n.parent() == p` and is visited exactly
once. -/
theorem children_iteration_visits_each_child_once (mem : Memory) (p : NodeRef)
    (cs : List xmlNodePtr) (hwf : wellFormedChildren mem p.node cs = true) :
    ∃ c, p.children mem = .ok c ∧
      (∃ it, NodeChildIterator.advance mem cs.length c.begin = .ok it ∧
        it.eq c.end_ = true ∧ it.ne c.end_ = false) ∧
      (∀ i (hi : i < cs.length), ∃ it, NodeChildIterator.advance mem i c.begin = .ok it ∧
        it.ne c.end_ = true ∧ it.eq c.end_ = false ∧ it.deref = NodeRef.mk cs[i]) ∧
      (∀ fuel, cs.length ≤ fuel →
        NodeChildren.forEach mem c.end_ fuel c.begin = some (.ok (cs.map NodeRef.mk))) ∧
      cs.Nodup ∧
      ∀ n ∈ cs, (NodeRef.mk n).parent mem = .ok p ∧
        (cs.map NodeRef.mk).count (NodeRef.mk n) = 1 := by
  simp only [wellFormedChildren, Bool.and_eq_true, bne_iff_ne, ne_eq] at hwf
  obtain ⟨hpz, hwf⟩ := hwf
  cases hm : mem.node p.node with
  | none => simp [hm] at hwf
  | some x =>
    simp only [hm, Bool.and_eq_true, beq_iff_eq] at hwf
    obtain ⟨hchain, hlast⟩ := hwf
    have hnz : ¬ (p.node = 0) := hpz
    obtain ⟨⟨pv, hfull⟩, hstep⟩ := advance_siblingChain mem p.node cs nullptr x.children hchain
    have hnodup := siblingChain_nodup mem p.node cs _ _ hchain
    refine ⟨NodeChildren.mk x.children x.last, ?_, ⟨_, hfull, by simp [NodeChildIterator.eq,
      NodeChildren.end_, NodeChildIterator.new], by simp [NodeChildIterator.ne, NodeChildren.end_,
      NodeChildIterator.new]⟩, ?_, ?_, hnodup, ?_⟩
    · simp [NodeRef.children, Memory.derefNode, hnz, hm, bind, Except.bind, pure, Except.pure]
    · intro i hi
      obtain ⟨hne, pv2, hadv⟩ := hstep i hi
      have hne2 : ¬ (cs[i] = 0) := hne
      exact ⟨_, hadv, by simp [NodeChildIterator.ne, NodeChildren.end_, NodeChildIterator.new,
        hne2], by simp [NodeChildIterator.eq, NodeChildren.end_, NodeChildIterator.new, hne2],
        rfl⟩
    · intro fuel hfuel
      exact forEach_siblingChain mem p.node cs nullptr x.children x.last fuel hchain hfuel
    · intro n hn
      refine ⟨siblingChain_parent mem p.node cs _ _ hchain n hn, ?_⟩
      have hinj : Function.Injective NodeRef.mk := by
        intro a b hab
        cases hab
        rfl
      rw [List.count_map_of_injective cs NodeRef.mk hinj n]
      exact List.count_eq_one_of_mem hnodup hn

/-- Witness of C8: node 1 of the sample tree, with children 2 and 3. -/
theorem children_iteration_visits_each_child_once_witness :
    wellFormedChildren Memory.tree 1 [2, 3] = true ∧
      ∃ c, (NodeRef.mk 1).children Memory.tree = .ok c ∧
        (∃ it, NodeChildIterator.advance Memory.tree 2 c.begin = .ok it ∧
          it.eq c.end_ = true ∧ it.ne c.end_ = false) ∧
        NodeChildren.forEach Memory.tree c.end_ 2 c.begin
          = some (.ok [NodeRef.mk 2, NodeRef.mk 3]) :=
  have h := children_iteration_visits_each_child_once Memory.tree (NodeRef.mk 1) [2, 3]
    (by decide)
  ⟨by decide, h.choose, h.choose_spec.1, h.choose_spec.2.1,
    h.choose_spec.2.2.2.1 2 (le_refl 2)⟩

/-- When the child list holds every node whose parent link is `p`, every node `n` with
`n.parent() == p` is in the list, hence visited exactly once. -/
theorem child_by_parent_link_in_list (mem : Memory) (p : NodeRef) (cs : List xmlNodePtr)
    (hall : ∀ n x, mem.derefNode n = .ok x → x.parent = p.node → n ∈ cs) (n : xmlNodePtr)
    (hn : (NodeRef.mk n).parent mem = .ok p) : n ∈ cs := by
  unfold NodeRef.parent at hn
  cases hd : mem.derefNode n with
  | error e => simp [hd, bind, Except.bind] at hn
  | ok y =>
    simp [hd, bind, Except.bind, pure, Except.pure] at hn
    exact hall n y hd (by rw [← hn])

/-- Progress: an operation whose `Node` objects are alive runs to its end; for `set_root` the
`DocumentRef` is null or names an existing document. -/
theorem step_defined (w : World) :
    (∃ w1, w.step .new = .ok w1) ∧
      (∀ n h, w.loadNode n = .ok h → ∃ w1, w.step (.moveCtor n) = .ok w1) ∧
      (∀ a b pa pb, w.loadNode a = .ok pa → w.loadNode b = .ok pb →
        (∃ w1, w.step (.assign a b) = .ok w1) ∧ ∃ w1, w.step (.opAssign a b) = .ok w1) ∧
      (∀ a h, w.loadNode a = .ok h →
        (∃ w1, w.step (.detach a) = .ok w1) ∧ ∃ w1, w.step (.destroy a) = .ok w1) ∧
      ∀ d n h, (d = nullptr ∨ d - 1 < w.docs.length) → w.loadNode n = .ok h →
        ∃ w1, w.step (.set_root d n) = .ok w1 := by
  refine ⟨⟨_, rfl⟩, ?_, ?_, ?_, ?_⟩
  · intro n h hn
    simp [World.step, node_moveCtor_eq w n h hn, bind, Except.bind, pure, Except.pure]
  · intro a b pa pb ha hb
    refine ⟨⟨_, node_assign_eq w a b pa pb ha hb⟩, ?_⟩
    by_cases hab : a = b
    · simp [World.step, Node.opAssign, hab]
    · simp [World.step, Node.opAssign, hab, node_assign_eq w a b pa pb ha hb]
  · intro a h ha
    refine ⟨?_, ⟨_, node_dtor_eq w a h ha⟩⟩
    simp [World.step, node_detach_eq w a h ha, bind, Except.bind, pure, Except.pure]
  · intro d n h hd hn
    by_cases hz : d = nullptr ∨ h = nullptr
    · simp [World.step, set_root_nothing w (DocumentRef.mk d) n h hn hz, bind, Except.bind,
        pure, Except.pure]
    · push_neg at hz
      have hlt : d - 1 < w.docs.length := by
        rcases hd with e | e
        · exact absurd e hz.1
        · exact e
      have hdoc : w.docs[(DocumentRef.mk d).doc - 1]? = some (w.docs[d - 1]) := by
        simp [List.getElem?_eq_getElem hlt]
      simp [World.step, set_root_eq w (DocumentRef.mk d) n h _ hz.1 hdoc hn hz.2, bind,
        Except.bind, pure, Except.pure]

/-- C11, as stated, fails for offsets that do not fit the `int` index: adding `2^32` is defined
and leaves the iterator where it was, so `(it + n) - it` is 0 and not `n`; for `n = -2^31`,
`it - n` is defined and `(it - n) - it` is `-2^31` and not `-n`. -/
theorem iterator_offset_beyond_int_is_lost :
    (XPathIterator.mk 2 0).plus 4294967296 = .ok (XPathIterator.mk 2 0) ∧
      ((XPathIterator.mk 2 0).plus 4294967296).bind (fun a => a.sub (XPathIterator.mk 2 0))
        = .ok 0 ∧
      (0 : Int) ≠ 4294967296 ∧
      ((XPathIterator.mk 2 0).minus (-2147483648)).bind
          (fun a => a.sub (XPathIterator.mk 2 0)) = .ok (-2147483648) ∧
      (-2147483648 : Int) ≠ -(-2147483648) := by
  refine ⟨rfl, rfl, by decide, rfl, by decide⟩

/-- An `int` operation is defined exactly when its value is in the range of `int`. -/
theorem intResult_ok_iff (x d : Int) :
    intResult x = .ok d ↔ -2147483648 ≤ x ∧ x ≤ 2147483647 ∧ d = x := by
  unfold intResult
  by_cases h : -2147483648 ≤ x ∧ x ≤ 2147483647
  · rw [if_pos h]
    constructor
    · intro e
      cases e
      exact ⟨h.1, h.2, rfl⟩
    · intro e
      rw [e.2.2]
  · rw [if_neg h]
    constructor
    · intro e
      cases e
    · intro e
      exact absurd ⟨e.1, e.2.1⟩ h

/-- A `std::ptrdiff_t` operation is defined exactly when its value is in range. -/
theorem ptrdiffResult_ok_iff (x d : Int) :
    ptrdiffResult x = .ok d ↔
      -9223372036854775808 ≤ x ∧ x ≤ 9223372036854775807 ∧ d = x := by
  unfold ptrdiffResult
  by_cases h : -9223372036854775808 ≤ x ∧ x ≤ 9223372036854775807
  · rw [if_pos h]
    constructor
    · intro e
      cases e
      exact ⟨h.1, h.2, rfl⟩
    · intro e
      rw [e.2.2]
  · rw [if_neg h]
    constructor
    · intro e
      cases e
    · intro e
      exact absurd ⟨e.1, e.2.1⟩ h

/-- A sequence of two steps yields a value exactly when both steps do. -/
theorem bind_ok_iff {α β : Type} (x : Except Failure α) (f : α → Except Failure β) (d : β) :
    x.bind f = .ok d ↔ ∃ a, x = .ok a ∧ f a = .ok d := by
  cases x with
  | error e => simp [Except.bind]
  | ok a => simp [Except.bind]

/-- A step followed by a pure function yields a value exactly when the step does. -/
theorem map_result_ok_iff {β : Type} (x : Except Failure Int) (g : Int → β) (b : β) :
    (do let v ← x; pure (g v) : Except Failure β) = .ok b ↔ ∃ v, x = .ok v ∧ b = g v := by
  cases x with
  | error e => simp [bind, Except.bind]
  | ok a => simp [bind, Except.bind, pure, Except.pure, eq_comm]

/-- Operator `+` unfolded: defined when the sum is in the range of `std::ptrdiff_t`, and then the
index is the sum converted to `int`. -/
theorem plus_ok_iff (it a : XPathIterator) (n : Int) :
    it.plus n = .ok a ↔ -9223372036854775808 ≤ it.index + n ∧
      it.index + n ≤ 9223372036854775807 ∧
      a = XPathIterator.mk it.set (toInt32 (it.index + n)) := by
  unfold XPathIterator.plus
  rw [map_result_ok_iff (ptrdiffResult (it.index + n))
    (fun v => XPathIterator.mk it.set (toInt32 v)) a]
  constructor
  · rintro ⟨v, hv, ha⟩
    rw [ptrdiffResult_ok_iff] at hv
    exact ⟨hv.1, hv.2.1, by rw [ha, hv.2.2]⟩
  · rintro ⟨h1, h2, ha⟩
    exact ⟨_, (ptrdiffResult_ok_iff _ _).mpr ⟨h1, h2, rfl⟩, ha⟩

/-- Operator `-` unfolded: defined when the difference is in the range of `std::ptrdiff_t`, and
then the index is the difference converted to `int`. -/
theorem minus_ok_iff (it a : XPathIterator) (n : Int) :
    it.minus n = .ok a ↔ -9223372036854775808 ≤ it.index - n ∧
      it.index - n ≤ 9223372036854775807 ∧
      a = XPathIterator.mk it.set (toInt32 (it.index - n)) := by
  unfold XPathIterator.minus
  rw [map_result_ok_iff (ptrdiffResult (it.index - n))
    (fun v => XPathIterator.mk it.set (toInt32 v)) a]
  constructor
  · rintro ⟨v, hv, ha⟩
    rw [ptrdiffResult_ok_iff] at hv
    exact ⟨hv.1, hv.2.1, by rw [ha, hv.2.2]⟩
  · rintro ⟨h1, h2, ha⟩
    exact ⟨_, (ptrdiffResult_ok_iff _ _).mpr ⟨h1, h2, rfl⟩, ha⟩

/-- Operator `++` unfolded: defined when the next index is in the range of `int`. -/
theorem inc_ok_iff (it a : XPathIterator) :
    it.inc = .ok a ↔ -2147483648 ≤ it.index + 1 ∧ it.index + 1 ≤ 2147483647 ∧
      a = XPathIterator.mk it.set (it.index + 1) := by
  unfold XPathIterator.inc
  rw [map_result_ok_iff (intResult (it.index + 1)) (fun v => XPathIterator.mk it.set v) a]
  constructor
  · rintro ⟨v, hv, ha⟩
    rw [intResult_ok_iff] at hv
    exact ⟨hv.1, hv.2.1, by rw [ha, hv.2.2]⟩
  · rintro ⟨h1, h2, ha⟩
    exact ⟨_, (intResult_ok_iff _ _).mpr ⟨h1, h2, rfl⟩, ha⟩

/-- Operator `--` unfolded: defined when the previous index is in the range of `int`. -/
theorem dec_ok_iff (it a : XPathIterator) :
    it.dec = .ok a ↔ -2147483648 ≤ it.index - 1 ∧ it.index - 1 ≤ 2147483647 ∧
      a = XPathIterator.mk it.set (it.index - 1) := by
  unfold XPathIterator.dec
  rw [map_result_ok_iff (intResult (it.index - 1)) (fun v => XPathIterator.mk it.set v) a]
  constructor
  · rintro ⟨v, hv, ha⟩
    rw [intResult_ok_iff] at hv
    exact ⟨hv.1, hv.2.1, by rw [ha, hv.2.2]⟩
  · rintro ⟨h1, h2, ha⟩
    exact ⟨_, (intResult_ok_iff _ _).mpr ⟨h1, h2, rfl⟩, ha⟩

/-- Postfix `++` returns the old iterator and leaves what prefix `++` gives. -/
theorem postInc_eq (it : XPathIterator) :
    it.postInc = it.inc.map (fun a => (it, a)) := by
  unfold XPathIterator.postInc XPathIterator.inc
  cases intResult (it.index + 1) <;> rfl

/-- Postfix `--` returns the old iterator and leaves what prefix `--` gives. -/
theorem postDec_eq (it : XPathIterator) :
    it.postDec = it.dec.map (fun a => (it, a)) := by
  unfold XPathIterator.postDec XPathIterator.dec
  cases intResult (it.index - 1) <;> rfl

/-- Conversion to `int` keeps exactly the values in the range of `int`. -/
theorem toInt32_eq_iff (x : Int) : toInt32 x = x ↔ -2147483648 ≤ x ∧ x ≤ 2147483647 := by
  unfold toInt32
  omega

/-- Conversion to `int` after adding and removing the same offset. -/
theorem toInt32_cancel (x y : Int) : toInt32 (toInt32 (x + y) - y) = toInt32 x := by
  unfold toInt32
  omega

/-- C11, amended. The node-set iterator keeps its position in an `int` index. For every
XPathIterator `it` and every offset `n`: `(it + n) - it` is defined and equal to `n` exactly when
both the target index `it.index + n` and `n` are in the range of `int`, and `(it - n) - it` is
defined and equal to `-n` exactly when both `it.index - n` and `-n` are in the range of `int`.
For an iterator whose index is an `int`: whenever `it + n` and then `- n` are defined the result
is `it` again, likewise `it += n` followed by `it -= n`, and both are defined whenever
`it.index + n` is in the range of `int`. The compound assignments agree with `+` and `-`, and
`++` and `--`, prefix and postfix, are defined when the index stays in the range of `int` and
agree with `+ 1` and `- 1` wherever they are defined. -/
theorem iterator_offset_arithmetic (it : XPathIterator) (n : Int) :
    (((it.plus n).bind fun a => a.sub it) = .ok n ↔
        (-2147483648 ≤ it.index + n ∧ it.index + n ≤ 2147483647 ∧
          -2147483648 ≤ n ∧ n ≤ 2147483647)) ∧
      (((it.minus n).bind fun a => a.sub it) = .ok (-n) ↔
        (-2147483648 ≤ it.index - n ∧ it.index - n ≤ 2147483647 ∧
          -2147483648 ≤ -n ∧ -n ≤ 2147483647)) ∧
      (-2147483648 ≤ it.index → it.index ≤ 2147483647 →
        (∀ a b, it.plus n = .ok a → a.minus n = .ok b → b = it ∧ b.eq it = true) ∧
        (∀ a b, it.add_assign n = .ok a → a.sub_assign n = .ok b → b = it) ∧
        (-2147483648 ≤ it.index + n → it.index + n ≤ 2147483647 →
          ∃ a, it.plus n = .ok a ∧ a.minus n = .ok it ∧
            it.add_assign n = .ok a ∧ a.sub_assign n = .ok it)) ∧
      it.add_assign n = it.plus n ∧ it.sub_assign n = it.minus n ∧
      (∀ a, it.inc = .ok a → it.plus 1 = .ok a ∧ it.postInc = .ok (it, a)) ∧
      (∀ a, it.dec = .ok a → it.minus 1 = .ok a ∧ it.postDec = .ok (it, a)) ∧
      (-2147483648 ≤ it.index + 1 → it.index + 1 ≤ 2147483647 →
        it.inc = .ok (XPathIterator.mk it.set (it.index + 1))) ∧
      (-2147483648 ≤ it.index - 1 → it.index - 1 ≤ 2147483647 →
        it.dec = .ok (XPathIterator.mk it.set (it.index - 1))) := by
  have key : ∀ a b, it.plus n = .ok a → a.minus n = .ok b →
      -2147483648 ≤ it.index → it.index ≤ 2147483647 → b = it := by
    intro a b ha hb h0 h1
    rw [plus_ok_iff] at ha
    rw [minus_ok_iff] at hb
    obtain ⟨_, _, ea⟩ := ha
    obtain ⟨_, _, eb⟩ := hb
    subst ea
    simp only at eb
    rw [eb, toInt32_cancel, toInt32_of_range _ h0 h1]
  refine ⟨?_, ?_, ?_, rfl, rfl, ?_, ?_, ?_, ?_⟩
  · rw [bind_ok_iff]
    constructor
    · rintro ⟨a, ha, hs⟩
      rw [plus_ok_iff] at ha
      obtain ⟨_, _, ea⟩ := ha
      subst ea
      unfold XPathIterator.sub at hs
      rw [intResult_ok_iff] at hs
      simp only at hs
      have h5 := (toInt32_eq_iff (it.index + n)).mp (by omega)
      omega
    · intro h
      refine ⟨XPathIterator.mk it.set (toInt32 (it.index + n)),
        (plus_ok_iff _ _ _).mpr ⟨by omega, by omega, rfl⟩, ?_⟩
      unfold XPathIterator.sub
      rw [intResult_ok_iff]
      simp only
      have h5 := toInt32_of_range (it.index + n) h.1 h.2.1
      omega
  · rw [bind_ok_iff]
    constructor
    · rintro ⟨a, ha, hs⟩
      rw [minus_ok_iff] at ha
      obtain ⟨_, _, ea⟩ := ha
      subst ea
      unfold XPathIterator.sub at hs
      rw [intResult_ok_iff] at hs
      simp only at hs
      have h5 := (toInt32_eq_iff (it.index - n)).mp (by omega)
      omega
    · intro h
      refine ⟨XPathIterator.mk it.set (toInt32 (it.index - n)),
        (minus_ok_iff _ _ _).mpr ⟨by omega, by omega, rfl⟩, ?_⟩
      unfold XPathIterator.sub
      rw [intResult_ok_iff]
      simp only
      have h5 := toInt32_of_range (it.index - n) h.1 h.2.1
      omega
  · intro hi0 hi1
    refine ⟨fun a b ha hb => ?_, fun a b ha hb => key a b ha hb hi0 hi1, ?_⟩
    · have := key a b ha hb hi0 hi1
      subst this
      exact ⟨rfl, by simp [XPathIterator.eq]⟩
    · intro h0 h1
      have hp : it.plus n = .ok (XPathIterator.mk it.set (it.index + n)) := by
        rw [plus_ok_iff]
        exact ⟨by omega, by omega, by rw [toInt32_of_range _ h0 h1]⟩
      have hmn : (XPathIterator.mk it.set (it.index + n)).minus n = .ok it := by
        rw [minus_ok_iff]
        simp only [add_sub_cancel_right]
        exact ⟨by omega, by omega, by rw [toInt32_of_range _ hi0 hi1]⟩
      exact ⟨_, hp, hmn, hp, hmn⟩
  · intro a ha
    refine ⟨?_, by rw [postInc_eq, ha]; rfl⟩
    rw [inc_ok_iff] at ha
    rw [plus_ok_iff]
    exact ⟨by omega, by omega, by rw [toInt32_of_range _ ha.1 ha.2.1]; exact ha.2.2⟩
  · intro a ha
    refine ⟨?_, by rw [postDec_eq, ha]; rfl⟩
    rw [dec_ok_iff] at ha
    rw [minus_ok_iff]
    exact ⟨by omega, by omega, by rw [toInt32_of_range _ ha.1 ha.2.1]; exact ha.2.2⟩
  · intro h0 h1
    exact (inc_ok_iff _ _).mpr ⟨h0, h1, rfl⟩
  · intro h0 h1
    exact (dec_ok_iff _ _).mpr ⟨h0, h1, rfl⟩

/-- Witness of C11 amended: from index 1 of the node set at handle 2, offset 2 and back. -/
theorem iterator_offset_arithmetic_witness :
    ((XPathIterator.mk 2 1).plus 2).bind (fun a => a.sub (XPathIterator.mk 2 1)) = .ok 2 ∧
      ((XPathIterator.mk 2 1).minus 2).bind (fun a => a.sub (XPathIterator.mk 2 1))
        = .ok (-2) ∧
      (∃ a, (XPathIterator.mk 2 1).plus 2 = .ok a ∧ a.minus 2 = .ok (XPathIterator.mk 2 1) ∧
        (XPathIterator.mk 2 1).add_assign 2 = .ok a ∧
        a.sub_assign 2 = .ok (XPathIterator.mk 2 1)) ∧
      (XPathIterator.mk 2 1).inc = .ok (XPathIterator.mk 2 2) :=
  have h := iterator_offset_arithmetic (XPathIterator.mk 2 1) 2
  ⟨h.1.mpr (by decide), h.2.1.mpr (by decide),
    (h.2.2.1 (by decide) (by decide)).2.2 (by decide) (by decide),
    h.2.2.2.2.2.2.2.1 (by decide) (by decide)⟩

/-- The four kind predicates on any non-null object: each is defined and tests the tag, no two
of them hold together, and one of them holds exactly when the tag is one of the four kinds. -/
theorem kind_predicates_exclusive (mem : Memory) (r : XPathObject) (o : xmlXPathObject)
    (hr : r.is_null = false) (ho : mem.xpathObject r.obj = some o) :
    r.is_nodeset mem = .ok (o.type == .XPATH_NODESET) ∧
      r.is_boolean mem = .ok (o.type == .XPATH_BOOLEAN) ∧
      r.is_number mem = .ok (o.type == .XPATH_NUMBER) ∧
      r.is_string mem = .ok (o.type == .XPATH_STRING) ∧
      (o.type == .XPATH_NODESET).toNat + (o.type == .XPATH_BOOLEAN).toNat +
        (o.type == .XPATH_NUMBER).toNat + (o.type == .XPATH_STRING).toNat ≤ 1 ∧
      ((o.type == .XPATH_NODESET).toNat + (o.type == .XPATH_BOOLEAN).toNat +
        (o.type == .XPATH_NUMBER).toNat + (o.type == .XPATH_STRING).toNat = 1 ↔
        (o.type = .XPATH_NODESET ∨ o.type = .XPATH_BOOLEAN ∨ o.type = .XPATH_NUMBER ∨
          o.type = .XPATH_STRING)) := by
  have hnz : r.obj ≠ 0 := by simpa [XPathObject.is_null] using hr
  have hd : mem.derefObject r.obj = .ok o := by simp [Memory.derefObject, hnz, ho]
  refine ⟨?_, ?_, ?_, ?_, ?_, ?_⟩
  · simp [XPathObject.is_nodeset, hd, bind, Except.bind, pure, Except.pure]
  · simp [XPathObject.is_boolean, hd, bind, Except.bind, pure, Except.pure]
  · simp [XPathObject.is_number, hd, bind, Except.bind, pure, Except.pure]
  · simp [XPathObject.is_string, hd, bind, Except.bind, pure, Except.pure]
  · cases o.type <;> decide
  · cases o.type <;> decide

/-- C12. For every non-null XPathObject `r` produced by evaluation (`XPathContent::eval` on a
path, or on a node and a path, with an engine whose evaluations yield one of the four kinds):
the four predicates `is_nodeset()`, `is_boolean()`, `is_number()`, `is_string()` are all defined
and exactly one of them is true. -/
theorem evaluation_result_has_exactly_one_kind (mem : Memory) (w : World) (self : Nat)
    (node : NodeRef) (s : String)
    (evalExpression : String → xmlXPathContextPtr → xmlXPathObjectPtr)
    (nodeEval : xmlNodePtr → String → xmlXPathContextPtr → xmlXPathObjectPtr)
    (hE : ∀ s c, evaluationResult mem (evalExpression s c) = true)
    (hN : ∀ n s c, evaluationResult mem (nodeEval n s c) = true) (r : XPathObject)
    (hr : XPathContent.eval evalExpression w self s = .ok r ∨
      XPathContent.eval_node nodeEval w self node s = .ok r)
    (hnn : r.is_null = false) :
    ∃ a b c d, r.is_nodeset mem = .ok a ∧ r.is_boolean mem = .ok b ∧
      r.is_number mem = .ok c ∧ r.is_string mem = .ok d ∧
      a.toNat + b.toNat + c.toNat + d.toNat = 1 := by
  have hres : evaluationResult mem r.obj = true := by
    rcases hr with h | h
    · cases hl : w.loadContext self with
      | error e => simp [XPathContent.eval, hl, bind, Except.bind] at h
      | ok c =>
        simp [XPathContent.eval, hl, bind, Except.bind, pure, Except.pure] at h
        rw [← h]
        exact hE s c
    · cases hl : w.loadContext self with
      | error e => simp [XPathContent.eval_node, hl, bind, Except.bind] at h
      | ok c =>
        simp [XPathContent.eval_node, hl, bind, Except.bind, pure, Except.pure] at h
        rw [← h]
        exact hN node.get s c
  have hnz : ¬ (r.obj = 0) := by simpa [XPathObject.is_null] using hnn
  simp only [evaluationResult, Bool.or_eq_true, beq_iff_eq] at hres
  rcases hres with h0 | hres
  · exact absurd h0 hnz
  · cases ho : mem.xpathObject r.obj with
    | none => simp [ho] at hres
    | some o =>
      simp only [ho, Bool.or_eq_true, beq_iff_eq] at hres
      obtain ⟨k1, k2, k3, k4, _, k6⟩ := kind_predicates_exclusive mem r o hnn ho
      refine ⟨_, _, _, _, k1, k2, k3, k4, k6.mpr ?_⟩
      rcases hres with ((h | h) | h) | h
      · exact Or.inl h
      · exact Or.inr (Or.inl h)
      · exact Or.inr (Or.inr (Or.inl h))
      · exact Or.inr (Or.inr (Or.inr h))

/-- Witness of C12: an engine that answers every evaluation with the string object at handle 1;
the result of `eval` is a string and nothing else. -/
theorem evaluation_result_has_exactly_one_kind_witness :
    XPathContent.eval (fun _ _ => 1) World.sample 0 "//attr" = .ok (XPathObject.mk 1) ∧
      ∃ a b c d, (XPathObject.mk 1).is_nodeset (Memory.single .XPATH_STRING) = .ok a ∧
        (XPathObject.mk 1).is_boolean (Memory.single .XPATH_STRING) = .ok b ∧
        (XPathObject.mk 1).is_number (Memory.single .XPATH_STRING) = .ok c ∧
        (XPathObject.mk 1).is_string (Memory.single .XPATH_STRING) = .ok d ∧
        a.toNat + b.toNat + c.toNat + d.toNat = 1 :=
  ⟨rfl, evaluation_result_has_exactly_one_kind (Memory.single .XPATH_STRING) World.sample 0
    (NodeRef.mk 1) "//attr" (fun _ _ => 1) (fun _ _ _ => 1) (fun _ _ => rfl) (fun _ _ _ => rfl)
    (XPathObject.mk 1) (Or.inl rfl) rfl⟩

/-- The last element of a non-empty list, by position. -/
theorem getLastD_eq_getD {α : Type} (cs : List α) (d e : α) (h : cs ≠ []) :
    cs.getLastD d = cs.getD (cs.length - 1) e := by
  cases cs with
  | nil => exact absurd rfl h
  | cons a t =>
    simp only [List.getLastD]
    rw [List.getLast_eq_getElem, List.getD_eq_getElem]

/-- A sibling chain starts at its first element, or at null when it is empty. -/
theorem siblingChain_head (mem : Memory) (p prev cur : xmlNodePtr) (cs : List xmlNodePtr)
    (h : siblingChain mem p prev cur cs = true) : cur = cs.getD 0 nullptr := by
  cases cs with
  | nil => simpa [siblingChain] using h
  | cons a t =>
    rw [siblingChain_cons] at h
    simpa using h.1

/-- The links along a sibling chain: the node at position `i` is live, its `prev` is the element
before it (the given `prev` at position 0) and its `next` the element after it (null at the
end). -/
theorem siblingChain_links (mem : Memory) (p : xmlNodePtr) (cs : List xmlNodePtr) :
    ∀ (prev cur : xmlNodePtr), siblingChain mem p prev cur cs = true →
      ∀ i, i < cs.length → ∃ n, mem.derefNode (cs.getD i nullptr) = .ok n ∧
        n.prev = (if i = 0 then prev else cs.getD (i - 1) nullptr) ∧
        n.next = cs.getD (i + 1) nullptr := by
  induction cs with
  | nil =>
    intro prev cur _ i hi
    simp at hi
  | cons a t ih =>
    intro prev cur h i hi
    rw [siblingChain_cons] at h
    obtain ⟨_, ha, n, hn, hprev, _, hrest⟩ := h
    have hnz : ¬ (a = 0) := ha
    cases i with
    | zero =>
      refine ⟨n, ?_, ?_, ?_⟩
      · simp [Memory.derefNode, hnz, hn]
      · simpa using hprev
      · simpa using siblingChain_head mem p a n.next t hrest
    | succ j =>
      have hj : j < t.length := by simpa using hi
      obtain ⟨m, hm, hmp, hmn⟩ := ih a n.next hrest j hj
      refine ⟨m, by simpa using hm, ?_, by simpa using hmn⟩
      cases j with
      | zero => simpa using hmp
      | succ k => simpa using hmp

/-- Walking a sibling chain with `++`, with the remembered handle: after `i` steps the iterator
stands on position `i` (null after the last) and remembers position `i - 1`. -/
theorem advance_position (mem : Memory) (p : xmlNodePtr) (cs : List xmlNodePtr) :
    ∀ (prev cur : xmlNodePtr), siblingChain mem p prev cur cs = true →
      ∀ i, i ≤ cs.length →
        NodeChildIterator.advance mem i (NodeChildIterator.mk cur prev)
          = .ok (NodeChildIterator.mk (cs.getD i nullptr)
              (if i = 0 then prev else cs.getD (i - 1) nullptr)) := by
  induction cs with
  | nil =>
    intro prev cur h i hi
    have hi0 : i = 0 := by simpa using hi
    subst hi0
    simp [siblingChain] at h
    simp [NodeChildIterator.advance, h]
  | cons a t ih =>
    intro prev cur h i hi
    have hhead := siblingChain_head mem p prev cur (a :: t) h
    rw [siblingChain_cons] at h
    obtain ⟨e, ha, n, hn, _, _, hrest⟩ := h
    subst e
    have hnz : ¬ (cur = 0) := ha
    cases i with
    | zero => simp [NodeChildIterator.advance]
    | succ j =>
      have hj : j ≤ t.length := by simpa using hi
      have hinc : (NodeChildIterator.mk cur prev).inc mem
          = .ok (NodeChildIterator.mk n.next cur) := by
        simp [NodeChildIterator.inc, Memory.derefNode, hnz, hn, bind, Except.bind, pure,
          Except.pure]
      simp only [NodeChildIterator.advance, bind, Except.bind, hinc]
      rw [ih cur n.next hrest j hj]
      cases j with
      | zero => simp
      | succ k => simp

/-- One `--` from position `i ≥ 1` of a sibling chain (the position after the last included)
stands on position `i - 1` and remembers position `i - 2`. -/
theorem dec_position (mem : Memory) (p : xmlNodePtr) (cs : List xmlNodePtr)
    (prev cur : xmlNodePtr) (h : siblingChain mem p prev cur cs = true) (i : Nat) (h1 : 1 ≤ i)
    (h2 : i ≤ cs.length) :
    (NodeChildIterator.mk (cs.getD i nullptr)
        (if i = 0 then prev else cs.getD (i - 1) nullptr)).dec mem
      = .ok (NodeChildIterator.mk (cs.getD (i - 1) nullptr)
          (if i - 1 = 0 then prev else cs.getD (i - 1 - 1) nullptr)) := by
  obtain ⟨n, hn, hp, _⟩ := siblingChain_links mem p cs prev cur h (i - 1) (by omega)
  have hi0 : ¬ (i = 0) := by omega
  simp only [hi0, if_false, NodeChildIterator.dec, hn, bind, Except.bind, pure, Except.pure, hp]

/-- Walking a sibling chain backwards with `--`: `k` steps from position `j ≥ k` stand on
position `j - k`, with the remembered handle of that position. -/
theorem retreat_position (mem : Memory) (p : xmlNodePtr) (cs : List xmlNodePtr)
    (prev cur : xmlNodePtr) (h : siblingChain mem p prev cur cs = true) :
    ∀ k j, k ≤ j → j ≤ cs.length →
      NodeChildIterator.retreat mem k (NodeChildIterator.mk (cs.getD j nullptr)
          (if j = 0 then prev else cs.getD (j - 1) nullptr))
        = .ok (NodeChildIterator.mk (cs.getD (j - k) nullptr)
            (if j - k = 0 then prev else cs.getD (j - k - 1) nullptr)) := by
  intro k
  induction k with
  | zero =>
    intro j _ _
    simp [NodeChildIterator.retreat]
  | succ k ih =>
    intro j hk hj
    have e : j - 1 - k = j - (k + 1) := by omega
    simp only [NodeChildIterator.retreat, bind, Except.bind,
      dec_position mem p cs prev cur h j (by omega) hj]
    rw [ih (j - 1) (by omega) (by omega), e]

/-- C13, as stated, fails for a node without children: for the childless node 1 its child list
is well formed, `children()` is defined, and decrementing `end()` reads `prev->prev` through the
null handle. -/
theorem decrement_end_of_childless_node_undefined :
    wellFormedChildren Memory.leaf 1 [] = true ∧
      (NodeRef.mk 1).children Memory.leaf = .ok (NodeChildren.mk nullptr nullptr) ∧
      (NodeChildren.mk nullptr nullptr).end_.dec Memory.leaf = .error .invalid_access := by
  refine ⟨by decide, rfl, rfl⟩

/-- C13, amended. For every node `p` with a well-formed child list `cs` of length `m`: when the
list is empty, decrementing `p.children().end()` reads through the null handle; when it is
non-empty, the decrement is defined and yields the very iterator (current and remembered handle)
reached by `m - 1` increments from `begin()`, which dereferences to the last child; `m`
increments from `begin()` give exactly `end()`. For every iterator positioned on a child,
whatever handle it remembers, `--(++it)` is defined, equals `it`, and is the iterator reached
from `begin()` by `++`. For every iterator reached by `i ≥ 1` increments from `begin()` (`end()`
included), which differs from `begin()`, `--it` is the iterator reached by `i - 1` increments,
standing on child `i - 1`, and `++(--it)` is `it` again. Repeated decrement: `k ≤ m` decrements
from `end()` give the iterator reached by `m - k` increments from `begin()`, so `m` decrements
give `begin()`. Decrementing `begin()` and incrementing `end()` read through the null handle.
Equality and inequality depend on the current handle only. -/
theorem reverse_traversal_of_children (mem : Memory) (p : NodeRef) (cs : List xmlNodePtr)
    (hwf : wellFormedChildren mem p.node cs = true) :
    ∃ c, p.children mem = .ok c ∧
      (cs = [] → c.end_.dec mem = .error .invalid_access) ∧
      (cs ≠ [] → ∃ it it2, c.end_.dec mem = .ok it ∧
        it.deref = NodeRef.mk (cs.getLastD nullptr) ∧
        NodeChildIterator.advance mem (cs.length - 1) c.begin = .ok it2 ∧
        it.eq it2 = true ∧ it2.eq it = true ∧ it = it2) ∧
      NodeChildIterator.advance mem cs.length c.begin = .ok c.end_ ∧
      (∀ i (hi : i < cs.length) (pv : xmlNodePtr), ∃ a b,
        (NodeChildIterator.mk cs[i] pv).inc mem = .ok a ∧ a.dec mem = .ok b ∧
        b.eq (NodeChildIterator.mk cs[i] pv) = true ∧ b.deref = NodeRef.mk cs[i] ∧
        NodeChildIterator.advance mem i c.begin = .ok b) ∧
      (∀ i, 1 ≤ i → i ≤ cs.length → ∃ it a b,
        NodeChildIterator.advance mem i c.begin = .ok it ∧ it.ne c.begin = true ∧
        it.dec mem = .ok a ∧ a.inc mem = .ok b ∧ b.eq it = true ∧ b = it ∧
        NodeChildIterator.advance mem (i - 1) c.begin = .ok a ∧
        a.deref = NodeRef.mk (cs.getD (i - 1) nullptr)) ∧
      (∀ k, k ≤ cs.length → ∃ it, NodeChildIterator.retreat mem k c.end_ = .ok it ∧
        NodeChildIterator.advance mem (cs.length - k) c.begin = .ok it ∧
        it.deref = NodeRef.mk (cs.getD (cs.length - k) nullptr)) ∧
      NodeChildIterator.retreat mem cs.length c.end_ = .ok c.begin ∧
      c.begin.dec mem = .error .invalid_access ∧
      c.end_.inc mem = .error .invalid_access ∧
      ∀ a b : NodeChildIterator, a.eq b = (a.cur == b.cur) ∧ a.ne b = (a.cur != b.cur) := by
  simp only [wellFormedChildren, Bool.and_eq_true, bne_iff_ne, ne_eq] at hwf
  obtain ⟨hpz, hwf⟩ := hwf
  cases hm : mem.node p.node with
  | none => simp [hm] at hwf
  | some x =>
    simp only [hm, Bool.and_eq_true, beq_iff_eq] at hwf
    obtain ⟨hchain, hlast⟩ := hwf
    have hnz : ¬ (p.node = 0) := hpz
    have hlinks := siblingChain_links mem p.node cs nullptr x.children hchain
    have hpos := advance_position mem p.node cs nullptr x.children hchain
    have hdec := dec_position mem p.node cs nullptr x.children hchain
    have hret := retreat_position mem p.node cs nullptr x.children hchain
    have hnodup := siblingChain_nodup mem p.node cs _ _ hchain
    have hc0 : x.children = cs.getD 0 nullptr :=
      siblingChain_head mem p.node nullptr x.children cs hchain
    have hend : (NodeChildren.mk x.children x.last).end_
        = NodeChildIterator.mk (cs.getD cs.length nullptr)
            (if cs.length = 0 then nullptr else cs.getD (cs.length - 1) nullptr) := by
      show NodeChildIterator.mk nullptr x.last = _
      rw [List.getD_eq_default cs nullptr (le_refl _), hlast]
      by_cases he : cs = []
      · subst he
        rfl
      · have hl : ¬ (cs.length = 0) := fun e => he (List.length_eq_zero.mp e)
        rw [if_neg hl, getLastD_eq_getD cs nullptr nullptr he]
    have hbegin : (NodeChildren.mk x.children x.last).begin
        = NodeChildIterator.mk x.children nullptr := rfl
    refine ⟨NodeChildren.mk x.children x.last, ?_, ?_, ?_, ?_, ?_, ?_, ?_, ?_, ?_, ?_, ?_⟩
    · simp [NodeRef.children, Memory.derefNode, hnz, hm, bind, Except.bind, pure, Except.pure]
    · intro he
      subst he
      simp only [List.getLastD] at hlast
      simp [NodeChildren.end_, NodeChildIterator.new, NodeChildIterator.dec, hlast,
        Memory.derefNode, bind, Except.bind]
    · intro hne
      have hlen : 0 < cs.length := List.length_pos.mpr hne
      refine ⟨_, _, ?_, ?_, hpos (cs.length - 1) (by omega), ?_, ?_, rfl⟩
      · rw [hend]
        exact hdec cs.length hlen (le_refl _)
      · simp only [NodeChildIterator.deref]
        rw [getLastD_eq_getD cs nullptr nullptr hne]
      · simp [NodeChildIterator.eq]
      · simp [NodeChildIterator.eq]
    · rw [hend, hbegin]
      exact hpos cs.length (le_refl _)
    · intro i hi pv
      obtain ⟨n, hn, hp, _⟩ := hlinks i hi
      rw [List.getD_eq_getElem cs nullptr hi] at hn
      have hposi := hpos i (le_of_lt hi)
      rw [List.getD_eq_getElem cs nullptr hi, ← hp] at hposi
      refine ⟨NodeChildIterator.mk n.next cs[i], NodeChildIterator.mk cs[i] n.prev, ?_, ?_, ?_,
        rfl, hposi⟩
      · simp [NodeChildIterator.inc, hn, bind, Except.bind, pure, Except.pure]
      · simp [NodeChildIterator.dec, hn, bind, Except.bind, pure, Except.pure]
      · simp [NodeChildIterator.eq]
    · intro i h1 h2
      obtain ⟨n, hn, _, hnn⟩ := hlinks (i - 1) (by omega)
      have hi0 : ¬ (i = 0) := by omega
      have hnn2 : n.next = cs.getD i nullptr := by
        rw [hnn]
        congr 1
        omega
      have hposi := hpos i h2
      have hdeci := hdec i h1 h2
      simp only [hi0, if_false] at hposi hdeci
      refine ⟨_, _, NodeChildIterator.mk (cs.getD i nullptr) (cs.getD (i - 1) nullptr), hposi,
        ?_, hdeci, ?_, ?_, rfl, hpos (i - 1) (by omega), rfl⟩
      · have hlen : 0 < cs.length := by omega
        obtain ⟨n0, hn0, _, _⟩ := hlinks 0 hlen
        have h0nz : cs.getD 0 nullptr ≠ 0 := by
          intro e
          rw [e] at hn0
          simp [Memory.derefNode] at hn0
        have hdiff : cs.getD i nullptr ≠ cs.getD 0 nullptr := by
          by_cases hlt : i < cs.length
          · rw [List.getD_eq_getElem cs nullptr hlt, List.getD_eq_getElem cs nullptr hlen]
            intro e
            have := (List.Nodup.getElem_inj_iff hnodup).mp e
            omega
          · rw [List.getD_eq_default cs nullptr (by omega)]
            exact fun e => h0nz e.symm
        simpa [NodeChildIterator.ne, NodeChildren.begin, NodeChildIterator.new, hc0] using hdiff
      · simp only [NodeChildIterator.inc, hn, bind, Except.bind, pure, Except.pure, hnn2]
      · simp only [NodeChildIterator.eq, beq_self_eq_true]
    · intro k hk
      refine ⟨_, ?_, hpos (cs.length - k) (by omega), rfl⟩
      rw [hend]
      exact hret k cs.length hk (le_refl _)
    · rw [hend, hbegin, hret cs.length cs.length (le_refl _) (le_refl _), hc0]
      simp
    · simp [NodeChildren.begin, NodeChildIterator.new, NodeChildIterator.dec, Memory.derefNode,
        bind, Except.bind]
    · simp [NodeChildren.end_, NodeChildIterator.new, NodeChildIterator.inc, Memory.derefNode,
        bind, Except.bind]
    · intro a b
      exact ⟨rfl, rfl⟩

/-- Witness of C13 amended: in the sample tree, decrementing `end()` of the children of node 1
stands on the last child 3, where one `++` from `begin()` arrives too, and decrementing twice
stands on the first child 2, which is `begin()`. -/
theorem reverse_traversal_of_children_witness :
    wellFormedChildren Memory.tree 1 [2, 3] = true ∧
      ∃ c, (NodeRef.mk 1).children Memory.tree = .ok c ∧
        (∃ it it2, c.end_.dec Memory.tree = .ok it ∧ it.deref = NodeRef.mk 3 ∧
          NodeChildIterator.advance Memory.tree 1 c.begin = .ok it2 ∧
          it.eq it2 = true ∧ it2.eq it = true ∧ it = it2) ∧
        NodeChildIterator.retreat Memory.tree 2 c.end_ = .ok c.begin ∧
        c.begin.deref = NodeRef.mk 2 :=
  have h := reverse_traversal_of_children Memory.tree (NodeRef.mk 1) [2, 3] (by decide)
  ⟨by decide, h.choose, h.choose_spec.1, h.choose_spec.2.2.1 (by decide),
    h.choose_spec.2.2.2.2.2.2.2.1,
    (Except.ok.inj (h.choose_spec.1.symm.trans (by rfl))) ▸ rfl⟩

end LXml
